import Mathlib

/-!
Shallow embedding of the scenario-utilities diff tools and a verification of
their specification.

The repository contains three tools:
* fuxdiff (src/unnamed/part_000): decodes two tagged chunk-container state
  files into Fuxstate snapshots and emits the structural differences;
* strdiff (src/strdiff.cpp) and resdiff (src/resdiff.cpp): decode MacBinary
  envelopes wrapping resource forks and diff string lists, interface colors
  and interface rectangles.

Every definition below is translated from the C++ source.  Fixed-width
big-endian integers are modelled as Nat (unsigned) or Int (signed); byte
streams are lists of byte values (Nat, each < 256 where it matters).  The
XML property tree built by the diff routines is modelled as the ordered list
of emitted change nodes (the constant generator comment is not a change
node).  Diff-time assertions and thrown exceptions are modelled with Except.
std::map is modelled as a key-sorted association list; map operator access,
which inserts a default value for a missing key, is modelled explicitly so
that mutation of the second snapshot during a diff is observable.
-/

namespace ScenarioUtils

/-- 4-byte chunk/resource tag, as the list of its byte values. -/
abbrev Tag := List Nat

/-- A Mac-Roman byte string (conversion to UTF-8 is an external sink). -/
abbrev MacStr := List Nat

/-- Diff-time fatal conditions: the damage-response key-field assertion
(src/unnamed/part_000:181), the unknown overhead-map font assertion
(src/unnamed/part_000:601), and the string-count mismatch exception
(src/strdiff.cpp:195-198, src/resdiff.cpp:347-350). -/
inductive DiffErr where
  | incomparableSnapshots
  | unknownFont
  | numStringsMismatch
deriving DecidableEq

/-- Chunk-container load failure (the payload-length assertions of
Fuxstate::load, src/unnamed/part_000:681-736). -/
inductive LoadErr where
  | corruptContainer
deriving DecidableEq

/-- MacBinary load failure (src/resdiff.cpp:168-197, src/strdiff.cpp:84-113). -/
inductive MacErr where
  | invalidEnvelope
deriving DecidableEq

/-- RGBColor (src/unnamed/part_000:51-86, src/resdiff.cpp:60-95). -/
structure RGBColor where
  r : Nat
  g : Nat
  b : Nat
deriving DecidableEq

/-- The color attributes an emitted color element carries (raw 16-bit
channel values; rendering divides by 65535.0). -/
structure ColorVals where
  red : Nat
  green : Nat
  blue : Nat
deriving DecidableEq

/-- An indexed color change element. -/
structure ColorNode where
  index : Nat
  vals : ColorVals
deriving DecidableEq

/-- RGBColor::diff(const RGBColor&) — unindexed; used for nested colors. -/
def RGBColor.diffC (a other : RGBColor) : Option ColorVals :=
  if a.r ≠ other.r ∨ a.g ≠ other.g ∨ a.b ≠ other.b then
    some ⟨other.r, other.g, other.b⟩
  else
    none

/-- RGBColor::diff(int, const RGBColor&) — indexed color element. -/
def RGBColor.diffI (index : Nat) (a other : RGBColor) : Option ColorNode :=
  if a.r ≠ other.r ∨ a.g ≠ other.g ∨ a.b ≠ other.b then
    some ⟨index, ⟨other.r, other.g, other.b⟩⟩
  else
    none

/-- AnnotationDefinition (src/unnamed/part_000:98-103). -/
structure AnnotationDefinition where
  color : RGBColor
  font : Int
  face : Int
  sizes : List Int
deriving DecidableEq

/-- ControlPanelDefinition (src/unnamed/part_000:105-149). -/
structure ControlPanelDefinition where
  panel_class : Int
  flags : Nat
  collection : Int
  active_shape : Int
  inactive_shape : Int
  sounds : List Int
  sound_frequency : Int
  item : Int
deriving DecidableEq

/-- The emitted panel element (type/coll/active_frame/inactive_frame/pitch/
item attributes plus nested sound children; pitch carries the raw 16.16
fixed-point value, rendered by dividing by 65536.0). -/
structure PanelNode where
  index : Nat
  ptype : Int
  coll : Int
  active_frame : Int
  inactive_frame : Int
  pitch : Int
  item : Int
  sound_children : List (Nat × Int)
deriving DecidableEq

/-- Pairs (i, other[i]) for the positions where two equal-length integer
arrays differ: the shape of the indexed child-element loops. -/
def idxChanges : Nat → List Int → List Int → List (Nat × Int)
  | _, [], _ => []
  | _, _, [] => []
  | i, a :: as, b :: bs =>
    (if a ≠ b then [(i, b)] else []) ++ idxChanges (i + 1) as bs

/-- ControlPanelDefinition::diff (src/unnamed/part_000:106-137). -/
def ControlPanelDefinition.diff (index : Nat) (a other : ControlPanelDefinition) :
    Option PanelNode :=
  if a.panel_class ≠ other.panel_class ∨ a.flags ≠ other.flags ∨
      a.collection ≠ other.collection ∨ a.active_shape ≠ other.active_shape ∨
      a.inactive_shape ≠ other.inactive_shape ∨ a.sounds ≠ other.sounds ∨
      a.sound_frequency ≠ other.sound_frequency ∨ a.item ≠ other.item then
    some ⟨index, other.panel_class, other.collection, other.active_shape,
      other.inactive_shape, other.sound_frequency, other.item,
      idxChanges 0 a.sounds other.sounds⟩
  else
    none

/-- DamageDefinition (src/unnamed/part_000:151-175). -/
structure DamageDefinition where
  dtype : Int
  flags : Int
  base : Int
  random : Int
  scale : Int
deriving DecidableEq

/-- The emitted damage element of a DamageDefinition (scale carries the raw
16.16 fixed-point value). -/
structure DamageVals where
  dtype : Int
  flags : Int
  base : Int
  random : Int
  scale : Int
deriving DecidableEq

/-- DamageDefinition::diff (src/unnamed/part_000:152-169). -/
def DamageDefinition.diff (a other : DamageDefinition) : Option DamageVals :=
  if a.dtype ≠ other.dtype ∨ a.flags ≠ other.flags ∨ a.base ≠ other.base ∨
      a.random ≠ other.random ∨ a.scale ≠ other.scale then
    some ⟨other.dtype, other.flags, other.base, other.random, other.scale⟩
  else
    none

/-- DamageResponse (src/unnamed/part_000:177-207). -/
structure DamageResponse where
  dtype : Int
  threshold : Int
  fade : Int
  sound : Int
  death_sound : Int
  death_action : Int
deriving DecidableEq

/-- The emitted player damage element. -/
structure DamageRespNode where
  index : Nat
  threshold : Int
  fade : Int
  sound : Int
  death_sound : Int
  death_action : Int
deriving DecidableEq

/-- DamageResponse::diff (src/unnamed/part_000:178-198).  The method begins
with assert(type == other.type): a key-field mismatch is fatal
(IncomparableSnapshots). -/
def DamageResponse.diff (a other : DamageResponse) (index : Nat) :
    Except DiffErr (Option DamageRespNode) :=
  if a.dtype ≠ other.dtype then
    .error .incomparableSnapshots
  else if a.threshold ≠ other.threshold ∨ a.fade ≠ other.fade ∨
      a.sound ≠ other.sound ∨ a.death_sound ≠ other.death_sound ∨
      a.death_action ≠ other.death_action then
    .ok (some ⟨index, other.threshold, other.fade, other.sound,
      other.death_sound, other.death_action⟩)
  else
    .ok none

/-- FadeDefinition (src/unnamed/part_000:209-246). -/
structure FadeDefinition where
  proc : Nat
  color : RGBColor
  initial_transparency : Int
  final_transparency : Int
  period : Int
  flags : Nat
  priority : Int
deriving DecidableEq

/-- The emitted fader element (opacities carry raw 16.16 values). -/
structure FadeNode where
  index : Nat
  ftype : Nat
  initial_opacity : Int
  final_opacity : Int
  period : Int
  flags : Nat
  priority : Int
  color_child : Option ColorVals
deriving DecidableEq

/-- FadeDefinition::diff (src/unnamed/part_000:210-238). -/
def FadeDefinition.diff (index : Nat) (a other : FadeDefinition) :
    Option FadeNode :=
  if a.proc ≠ other.proc ∨ a.color ≠ other.color ∨
      a.initial_transparency ≠ other.initial_transparency ∨
      a.final_transparency ≠ other.final_transparency ∨
      a.period ≠ other.period ∨ a.flags ≠ other.flags ∨
      a.priority ≠ other.priority then
    some ⟨index, other.proc, other.initial_transparency,
      other.final_transparency, other.period, other.flags, other.priority,
      RGBColor.diffC a.color other.color⟩
  else
    none

/-- LineDefinition (src/unnamed/part_000:248-271).  Fuxstate::diff uses its
color and pen_sizes members directly. -/
structure LineDefinition where
  color : RGBColor
  pen_sizes : List Int
deriving DecidableEq

/-- An overhead-map line element (type = line index, scale = pen index). -/
structure LineNode where
  ltype : Nat
  scale : Nat
  width : Int
deriving DecidableEq

/-- MediaDefinition (src/unnamed/part_000:273-332).  shape_frequency is
present in the record but explicitly excluded from the comparison
(src/unnamed/part_000:281). -/
structure MediaDefinition where
  collection : Int
  shape : Int
  shape_count : Int
  shape_frequency : Int
  transfer_mode : Int
  damage_frequency : Int
  damage : DamageDefinition
  detonation_effects : List Int
  sounds : List Int
  submerged_fade_effect : Int
deriving DecidableEq

/-- The emitted liquid element. -/
structure LiquidNode where
  index : Nat
  coll : Int
  frame : Int
  transfer : Int
  damage_freq : Int
  damage_child : Option DamageVals
  effect_children : List (Nat × Int)
  sound_children : List (Nat × Int)
  submerged : Int
deriving DecidableEq

/-- MediaDefinition::diff (src/unnamed/part_000:274-319). -/
def MediaDefinition.diff (index : Nat) (a other : MediaDefinition) :
    Option LiquidNode :=
  let damage_tree := DamageDefinition.diff a.damage other.damage
  if a.collection ≠ other.collection ∨ a.shape ≠ other.shape ∨
      a.shape_count ≠ other.shape_count ∨
      a.transfer_mode ≠ other.transfer_mode ∨
      a.damage_frequency ≠ other.damage_frequency ∨
      damage_tree.isSome ∨
      a.detonation_effects ≠ other.detonation_effects ∨
      a.sounds ≠ other.sounds ∨
      a.submerged_fade_effect ≠ other.submerged_fade_effect then
    some ⟨index, other.collection, other.shape, other.transfer_mode,
      other.damage_frequency, damage_tree,
      idxChanges 0 a.detonation_effects other.detonation_effects,
      idxChanges 0 a.sounds other.sounds, other.submerged_fade_effect⟩
  else
    none

/-- SceneryDefinition (src/unnamed/part_000:334-379). -/
structure SceneryDefinition where
  flags : Nat
  shape : Nat
  radius : Int
  height : Int
  destroyed_effect : Int
  destroyed_shape : Nat
deriving DecidableEq

/-- A packed 16-bit shape reference decomposed into collection index,
color lookup table and frame sequence (src/unnamed/part_000:350-366). -/
structure ShapeNode where
  coll : Nat
  clut : Nat
  seq : Nat
deriving DecidableEq

/-- The emitted scenery object element. -/
structure SceneryNode where
  index : Nat
  flags : Nat
  radius : Int
  height : Int
  destruction : Int
  normal_shape : Option ShapeNode
  destroyed_shape : Option ShapeNode
deriving DecidableEq

/-- SceneryDefinition::diff (src/unnamed/part_000:335-370). -/
def SceneryDefinition.diff (index : Nat) (a other : SceneryDefinition) :
    Option SceneryNode :=
  if a.flags ≠ other.flags ∨ a.shape ≠ other.shape ∨ a.radius ≠ other.radius ∨
      a.height ≠ other.height ∨ a.destroyed_effect ≠ other.destroyed_effect ∨
      a.destroyed_shape ≠ other.destroyed_shape then
    some ⟨index, other.flags, other.radius, other.height,
      other.destroyed_effect,
      (if a.shape ≠ other.shape then
        some ⟨(other.shape >>> 8) &&& 0x1f, other.shape >>> 11,
          other.shape &&& 0xff⟩
      else none),
      (if a.destroyed_shape ≠ other.destroyed_shape then
        some ⟨(other.destroyed_shape >>> 8) &&& 0x1f,
          other.destroyed_shape >>> 11, other.destroyed_shape &&& 0xff⟩
      else none)⟩
  else
    none

/-- WeaponInterfaceAmmoDefinition (src/unnamed/part_000:381-441). -/
structure WeaponInterfaceAmmoDefinition where
  atype : Int
  screen_left : Int
  screen_top : Int
  ammo_across : Int
  ammo_down : Int
  delta_x : Int
  delta_y : Int
  bullet : Int
  empty_bullet : Int
  right_to_left : Nat
deriving DecidableEq

/-- The emitted ammo element. -/
structure AmmoNode where
  index : Nat
  atype : Int
  left : Int
  top : Int
  across : Int
  down : Int
  delta_x : Int
  delta_y : Int
  bullet_shape : Int
  empty_shape : Int
  right_to_left : Bool
deriving DecidableEq

/-- WeaponInterfaceAmmoDefinition::diff (src/unnamed/part_000:382-410). -/
def WeaponInterfaceAmmoDefinition.diff (index : Nat)
    (a other : WeaponInterfaceAmmoDefinition) : Option AmmoNode :=
  if a.atype ≠ other.atype ∨ a.screen_left ≠ other.screen_left ∨
      a.screen_top ≠ other.screen_top ∨ a.ammo_across ≠ other.ammo_across ∨
      a.ammo_down ≠ other.ammo_down ∨ a.delta_x ≠ other.delta_x ∨
      a.delta_y ≠ other.delta_y ∨ a.bullet ≠ other.bullet ∨
      a.empty_bullet ≠ other.empty_bullet ∨
      a.right_to_left ≠ other.right_to_left then
    some ⟨index, other.atype, other.screen_left, other.screen_top,
      other.ammo_across, other.ammo_down, other.delta_x, other.delta_y,
      other.bullet, other.empty_bullet, other.right_to_left ≠ 0⟩
  else
    none

/-- WeaponInterfaceDefinition (src/unnamed/part_000:443-493); the two ammo_data
array slots are modelled as explicit fields. -/
structure WeaponInterfaceDefinition where
  item_id : Int
  weapon_panel_shape : Int
  weapon_name_start_y : Int
  weapon_name_end_y : Int
  weapon_name_start_x : Int
  weapon_name_end_x : Int
  standard_weapon_panel_top : Int
  standard_weapon_panel_left : Int
  multi_weapon : Nat
  ammo0 : WeaponInterfaceAmmoDefinition
  ammo1 : WeaponInterfaceAmmoDefinition
deriving DecidableEq

/-- The emitted weapon element. -/
structure WeaponNode where
  index : Nat
  shape : Int
  start_y : Int
  end_y : Int
  start_x : Int
  end_x : Int
  top : Int
  left : Int
  multiple : Bool
  ammo_children : List AmmoNode
deriving DecidableEq

/-- WeaponInterfaceDefinition::diff (src/unnamed/part_000:444-480).  An
item_id mismatch only prints a warning; it emits no node and is not fatal. -/
def WeaponInterfaceDefinition.diff (index : Nat)
    (a other : WeaponInterfaceDefinition) : Option WeaponNode :=
  if a.weapon_panel_shape ≠ other.weapon_panel_shape ∨
      a.weapon_name_start_y ≠ other.weapon_name_start_y ∨
      a.weapon_name_end_y ≠ other.weapon_name_end_y ∨
      a.weapon_name_start_x ≠ other.weapon_name_start_x ∨
      a.weapon_name_end_x ≠ other.weapon_name_end_x ∨
      a.standard_weapon_panel_top ≠ other.standard_weapon_panel_top ∨
      a.standard_weapon_panel_left ≠ other.standard_weapon_panel_left ∨
      a.multi_weapon ≠ other.multi_weapon ∨
      a.ammo0 ≠ other.ammo0 ∨ a.ammo1 ≠ other.ammo1 then
    some ⟨index, other.weapon_panel_shape, other.weapon_name_start_y,
      other.weapon_name_end_y, other.weapon_name_start_x,
      other.weapon_name_end_x, other.standard_weapon_panel_top,
      other.standard_weapon_panel_left, other.multi_weapon ≠ 0,
      (WeaponInterfaceAmmoDefinition.diff 0 a.ammo0 other.ammo0).toList ++
        (WeaponInterfaceAmmoDefinition.diff 1 a.ammo1 other.ammo1).toList⟩
  else
    none

/-- An overhead-map font element. -/
structure FontNode where
  index : Nat
  name : String
  size : Int
  style : Int
deriving DecidableEq

/-- A random-sound element. -/
structure RandomNode where
  index : Nat
  sound : Int
deriving DecidableEq

/-- One emitted change node of the chunk-container diff (a child of the
marathon root element in the generated MML document). -/
inductive ChangeNode where
  | panel : PanelNode → ChangeNode
  | fader : FadeNode → ChangeNode
  | color : ColorNode → ChangeNode
  | line : LineNode → ChangeNode
  | font : FontNode → ChangeNode
  | damage : DamageRespNode → ChangeNode
  | liquid : LiquidNode → ChangeNode
  | random : RandomNode → ChangeNode
  | scenery : SceneryNode → ChangeNode
  | weapon : WeaponNode → ChangeNode
deriving DecidableEq

/-- The residual unknown-tag map (std::map<Tag, std::vector<char>>),
modelled as a key-sorted association list. -/
abbrev TagMap := List (Tag × List Nat)

/-- Lexicographic order on byte lists: the std::array<char,4> key order of
the std::map (bytes taken as unsigned values). -/
def tagLt : List Nat → List Nat → Bool
  | [], [] => false
  | [], _ :: _ => true
  | _ :: _, [] => false
  | a :: as, b :: bs => if a < b then true else if a = b then tagLt as bs else false

/-- Association-list lookup for the tag map. -/
def tagLookup (k : Tag) : TagMap → Option (List Nat)
  | [] => none
  | (k2, v) :: rest => if k = k2 then some v else tagLookup k rest

/-- Sorted insertion into the tag map. -/
def tagInsertSorted (k : Tag) (v : List Nat) : TagMap → TagMap
  | [] => [(k, v)]
  | (k2, v2) :: rest =>
    if tagLt k k2 then (k, v) :: (k2, v2) :: rest
    else (k2, v2) :: tagInsertSorted k v rest

/-- std::map operator access: returns the mapped value, inserting a
default-constructed (empty) vector for a missing key. -/
def tagGetOrInsert (m : TagMap) (k : Tag) : List Nat × TagMap :=
  match tagLookup k m with
  | some v => (v, m)
  | none => ([], tagInsertSorted k [] m)

/-- The unknown-tag loop of Fuxstate::diff (src/unnamed/part_000:653-668):
for every tag of the base snapshot, other.tags[tag] is evaluated, inserting
an empty blob into the second snapshot's map when the key is missing.  The
comparisons only drive stderr reporting; this returns the second snapshot's
map after the loop. -/
def tagFold (other : TagMap) : List (Tag × List Nat) → TagMap
  | [] => other
  | (k, _) :: rest => tagFold (tagGetOrInsert other k).2 rest

/-- Indexed element-by-element diff of two equal-length arrays: the shape of
the per-index loops of Fuxstate::diff. -/
def diffList {α β : Type} (f : Nat → α → α → Option β) :
    Nat → List α → List α → List β
  | _, [], _ => []
  | _, _ :: _, [] => []
  | i, a :: as, b :: bs =>
    match f i a b with
    | some n => n :: diffList f (i + 1) as bs
    | none => diffList f (i + 1) as bs

/-- The overhead-map line loop (src/unnamed/part_000:573-584): a line element
for every pen size that differs. -/
def penSizeNodes : Nat → List LineDefinition → List LineDefinition → List LineNode
  | _, [], _ => []
  | _, _ :: _, [] => []
  | i, l :: ls, o :: os =>
    (idxChanges 0 l.pen_sizes o.pen_sizes).map (fun p => ⟨i, p.1, p.2⟩) ++
      penSizeNodes (i + 1) ls os

/-- The font-name switch of the overhead-map font loop
(src/unnamed/part_000:593-602): any font id other than 4 (Monaco) or
22 (Courier) hits assert(false). -/
def fontName : Int → Except DiffErr String
  | 4 => .ok "Monaco"
  | 22 => .ok "Courier"
  | _ => .error .unknownFont

/-- The overhead-map font loop (src/unnamed/part_000:587-607): one font
element per size slot whenever the font, face, or that slot's size differs. -/
def fontSection (a other : AnnotationDefinition) :
    Nat → List Int → List Int → Except DiffErr (List FontNode)
  | _, [], _ => .ok []
  | _, _ :: _, [] => .ok []
  | i, s :: ss, os :: oss =>
    if a.font ≠ other.font ∨ a.face ≠ other.face ∨ s ≠ os then
      match fontName other.font with
      | .error e => .error e
      | .ok nm =>
        match fontSection a other (i + 1) ss oss with
        | .error e => .error e
        | .ok rest => .ok (⟨i, nm, os, other.face⟩ :: rest)
    else fontSection a other (i + 1) ss oss

/-- The player damage loop (src/unnamed/part_000:609-614): each
DamageResponse::diff call first asserts that the key fields match. -/
def dmgSection : Nat → List DamageResponse → List DamageResponse →
    Except DiffErr (List DamageRespNode)
  | _, [], _ => .ok []
  | _, _ :: _, [] => .ok []
  | i, a :: as, b :: bs =>
    match DamageResponse.diff a b i with
    | .error e => .error e
    | .ok n =>
      match dmgSection (i + 1) as bs with
      | .error e => .error e
      | .ok rest => .ok (n.toList ++ rest)

/-- The decoded chunk-container snapshot (class Fuxstate,
src/unnamed/part_000:495-514); the fixed arrays are modelled as lists whose
lengths are fixed by the format (54, 24, 32, 4, 3, 5, 6, 5, 61, 10). -/
structure Fuxstate where
  annotation_definition : AnnotationDefinition
  control_panels : List ControlPanelDefinition
  damage_responses : List DamageResponse
  fade_definitions : List FadeDefinition
  infravision_colors : List RGBColor
  line_definitions : List LineDefinition
  map_name_color : RGBColor
  media_definitions : List MediaDefinition
  polygon_colors : List RGBColor
  random_sounds : List Int
  scenery_definitions : List SceneryDefinition
  tags : TagMap
  weapon_interface_definitions : List WeaponInterfaceDefinition
deriving DecidableEq

/-- Fuxstate::diff (src/unnamed/part_000:516-673): emits the ordered change
nodes and returns the second snapshot's unknown-tag map after the final tag
loop (whose map operator access can insert entries into it).  A fatal
assertion is an error and nothing is emitted. -/
def Fuxstate.diff (a other : Fuxstate) :
    Except DiffErr (List ChangeNode × TagMap) :=
  let panels := (diffList ControlPanelDefinition.diff 0
    a.control_panels other.control_panels).map ChangeNode.panel
  let faders := (diffList FadeDefinition.diff 0
    a.fade_definitions other.fade_definitions).map ChangeNode.fader
  let infra := (diffList RGBColor.diffI 0
    a.infravision_colors other.infravision_colors).map ChangeNode.color
  let poly := (diffList RGBColor.diffI 0
    a.polygon_colors other.polygon_colors).map ChangeNode.color
  let lineColors := (diffList (fun i l o => RGBColor.diffI (i + 8) l.color o.color) 0
    a.line_definitions other.line_definitions).map ChangeNode.color
  let annColor := (RGBColor.diffI 16 a.annotation_definition.color
    other.annotation_definition.color).toList.map ChangeNode.color
  let mapColor := (RGBColor.diffI 17 a.map_name_color
    other.map_name_color).toList.map ChangeNode.color
  let penLines := (penSizeNodes 0 a.line_definitions
    other.line_definitions).map ChangeNode.line
  match fontSection a.annotation_definition other.annotation_definition 0
      a.annotation_definition.sizes other.annotation_definition.sizes with
  | .error e => .error e
  | .ok fonts =>
    match dmgSection 0 a.damage_responses other.damage_responses with
    | .error e => .error e
    | .ok dmgs =>
      let liquids := (diffList MediaDefinition.diff 0
        a.media_definitions other.media_definitions).map ChangeNode.liquid
      let randoms := (diffList
        (fun i (s o : Int) => if s ≠ o then some (⟨i, o⟩ : RandomNode) else none) 0
        a.random_sounds other.random_sounds).map ChangeNode.random
      let scenery := (diffList SceneryDefinition.diff 0
        a.scenery_definitions other.scenery_definitions).map ChangeNode.scenery
      let weapons := (diffList WeaponInterfaceDefinition.diff 0
        a.weapon_interface_definitions
        other.weapon_interface_definitions).map ChangeNode.weapon
      .ok (panels ++ faders ++ infra ++ poly ++ lineColors ++ annColor ++
        mapColor ++ penLines ++ fonts.map ChangeNode.font ++
        dmgs.map ChangeNode.damage ++ liquids ++ randoms ++ scenery ++ weapons,
        tagFold other.tags a.tags)

/-- Big-endian 32-bit value from four bytes at a position (default 0 past
the end, matching an already failed stream). -/
def readU32D (data : List Nat) (pos : Nat) : Nat :=
  data.getD pos 0 * 16777216 + data.getD (pos + 1) 0 * 65536 +
    data.getD (pos + 2) 0 * 256 + data.getD (pos + 3) 0

def tagClfx : Tag := ['C'.toNat, 'l'.toNat, 'f'.toNat, 'x'.toNat]
def tagDamg : Tag := ['D'.toNat, 'a'.toNat, 'm'.toNat, 'g'.toNat]
def tagIvcl : Tag := ['I'.toNat, 'v'.toNat, 'c'.toNat, 'l'.toNat]
def tagMdia : Tag := ['M'.toNat, 'd'.toNat, 'i'.toNat, 'a'.toNat]
def tagMpln : Tag := ['M'.toNat, 'p'.toNat, 'l'.toNat, 'n'.toNat]
def tagMpnc : Tag := ['M'.toNat, 'p'.toNat, 'n'.toNat, 'c'.toNat]
def tagMppl : Tag := ['M'.toNat, 'p'.toNat, 'p'.toNat, 'l'.toNat]
def tagMptx : Tag := ['M'.toNat, 'p'.toNat, 't'.toNat, 'x'.toNat]
def tagPanl : Tag := ['P'.toNat, 'a'.toNat, 'n'.toNat, 'l'.toNat]
def tagRand : Tag := ['R'.toNat, 'a'.toNat, 'n'.toNat, 'd'.toNat]
def tagScnr : Tag := ['S'.toNat, 'c'.toNat, 'n'.toNat, 'r'.toNat]
def tagType : Tag := ['T'.toNat, 'y'.toNat, 'p'.toNat, 'e'.toNat]
def tagWep2 : Tag := ['W'.toNat, 'e'.toNat, 'p'.toNat, '2'.toNat]

/-- One step of the Fuxstate::load dispatch (src/unnamed/part_000:689-734)
after a successful 8-byte header read: for a known tag, the payload-length
assertion is checked (modelled as a fatal CorruptContainer error, the
debug-build behavior) and the fixed number of payload bytes is consumed;
the Damg arm's assert(header.length = 288) is an assignment whose value 288
is truthy, so that check always passes; the Type arm seeks past its 28
payload bytes; an unknown tag's declared length of bytes is stored
verbatim.  Returns the bytes to consume after the header, or the error. -/
def chunkStep (tag : Tag) (len : Nat) : Except LoadErr Nat :=
  if tag = tagClfx then (if len = 768 then .ok 768 else .error .corruptContainer)
  else if tag = tagDamg then .ok 288
  else if tag = tagIvcl then (if len = 24 then .ok 24 else .error .corruptContainer)
  else if tag = tagMdia then (if len = 260 then .ok 260 else .error .corruptContainer)
  else if tag = tagMpln then (if len = 42 then .ok 42 else .error .corruptContainer)
  else if tag = tagMpnc then (if len = 6 then .ok 6 else .error .corruptContainer)
  else if tag = tagMppl then (if len = 36 then .ok 36 else .error .corruptContainer)
  else if tag = tagMptx then (if len = 18 then .ok 18 else .error .corruptContainer)
  else if tag = tagPanl then (if len = 1188 then .ok 1188 else .error .corruptContainer)
  else if tag = tagRand then (if len = 10 then .ok 10 else .error .corruptContainer)
  else if tag = tagScnr then (if len = 732 then .ok 732 else .error .corruptContainer)
  else if tag = tagType then (if len = 28 then .ok 28 else .error .corruptContainer)
  else if tag = tagWep2 then (if len = 580 then .ok 580 else .error .corruptContainer)
  else .ok len

/-- The chunk walk of Fuxstate::load (src/unnamed/part_000:681-736): read an
8-byte header {tag, u32 big-endian length} until fewer than 8 bytes remain
(normal termination), validate and consume each payload, and record the
(tag, declared length) of every processed chunk.  A short payload read sets
the stream's fail state, ending the loop at the next header read, which the
drop past the end models.  The fuel argument (at least the stream length,
every iteration consumes at least the 8 header bytes) makes the recursion
structural. -/
def loadChunksGo : Nat → List Nat → Except LoadErr (List (Tag × Nat))
  | 0, _ => .ok []
  | n + 1, data =>
    if data.length < 8 then .ok []
    else
      let tag := data.take 4
      let len := readU32D data 4
      match chunkStep tag len with
      | .error e => .error e
      | .ok consumed =>
        match loadChunksGo n (data.drop (8 + consumed)) with
        | .error e => .error e
        | .ok rest => .ok ((tag, len) :: rest)

/-- Fuxstate::load on an in-memory stream. -/
def Fuxstate.load (data : List Nat) : Except LoadErr (List (Tag × Nat)) :=
  loadChunksGo data.length data

/-- Rect (src/resdiff.cpp:107-140). -/
structure Rect where
  top : Nat
  left : Nat
  bottom : Nat
  right : Nat
deriving DecidableEq

/-- The emitted interface rect element. -/
structure RectNode where
  index : Nat
  top : Nat
  left : Nat
  bottom : Nat
  right : Nat
deriving DecidableEq

/-- Rect::diff (src/resdiff.cpp:108-124). -/
def Rect.diff (index : Nat) (a other : Rect) : Option RectNode :=
  if a.top ≠ other.top ∨ a.left ≠ other.left ∨ a.bottom ≠ other.bottom ∨
      a.right ≠ other.right then
    some ⟨index, other.top, other.left, other.bottom, other.right⟩
  else
    none

/-- The string-list map std::map<int, std::vector<std::string>> of
MacBinary, as a key-sorted association list. -/
abbrev StrMap := List (Int × List MacStr)

/-- Association-list lookup for the string-list map. -/
def strLookup (k : Int) : StrMap → Option (List MacStr)
  | [] => none
  | (k2, v) :: rest => if k = k2 then some v else strLookup k rest

/-- Sorted insertion into the string-list map. -/
def strInsertSorted (k : Int) (v : List MacStr) : StrMap → StrMap
  | [] => [(k, v)]
  | (k2, v2) :: rest =>
    if k < k2 then (k, v) :: (k2, v2) :: rest
    else (k2, v2) :: strInsertSorted k v rest

/-- std::map operator access on the string-list map: returns the mapped
value, inserting a default-constructed (empty) vector for a missing key. -/
def strGetOrInsert (m : StrMap) (k : Int) : List MacStr × StrMap :=
  match strLookup k m with
  | some v => (v, m)
  | none => ([], strInsertSorted k [] m)

/-- Pairs (i, other[i]) for the positions where two equal-length string
lists differ: the inner loop of the stringset diff
(src/strdiff.cpp:202-213). -/
def strChanges : Nat → List MacStr → List MacStr → List (Nat × MacStr)
  | _, [], _ => []
  | _, _ :: _, [] => []
  | i, s :: ss, t :: ts =>
    (if s ≠ t then [(i, t)] else []) ++ strChanges (i + 1) ss ts

/-- The emitted stringset element: its numeric id and the changed strings
(index and new Mac-Roman bytes; UTF-8 conversion is the external codec). -/
structure StringsetNode where
  index : Int
  strings : List (Nat × MacStr)
deriving DecidableEq

/-- One emitted change node of the resource-fork diff. -/
inductive MacNode where
  | stringset : StringsetNode → MacNode
  | color : ColorNode → MacNode
  | rect : RectNode → MacNode
deriving DecidableEq

/-- The string loop of MacBinary::diff (src/strdiff.cpp:185-219,
src/resdiff.cpp:337-371): iterate the base snapshot's string lists in key
order; id 129 (filenames) is skipped outright; other.strings_[id] is the
inserting map access; a different element count throws; otherwise one
stringset node is emitted when any element differs.  Returns the emitted
nodes and the second snapshot's map after the loop. -/
def diffStrings (other : StrMap) :
    List (Int × List MacStr) → Except DiffErr (List StringsetNode × StrMap)
  | [] => .ok ([], other)
  | (id, v) :: rest =>
    if id = 129 then diffStrings other rest
    else
      let ov := (strGetOrInsert other id).1
      let other2 := (strGetOrInsert other id).2
      if v.length ≠ ov.length then .error .numStringsMismatch
      else
        match diffStrings other2 rest with
        | .error e => .error e
        | .ok (nodes, om) =>
          let changed := strChanges 0 v ov
          if changed.isEmpty then .ok (nodes, om)
          else .ok (⟨id, changed⟩ :: nodes, om)

/-- The decoded resource-fork snapshot of resdiff's MacBinary
(src/resdiff.cpp:142-166); interface_colors_ has 26 slots of which the
load and the diff use 25, interface_rects_ has 18. -/
structure MacSnapshot where
  strings : StrMap
  interface_colors : List RGBColor
  interface_rects : List Rect
deriving DecidableEq

/-- MacBinary::diff (src/resdiff.cpp:333-389; src/strdiff.cpp:181-223 is the
string loop alone): stringset nodes, then the first 25 interface colors,
then the 18 interface rects.  Returns the nodes and the second snapshot's
string map after the loop. -/
def MacSnapshot.diff (a other : MacSnapshot) :
    Except DiffErr (List MacNode × StrMap) :=
  match diffStrings other.strings a.strings with
  | .error e => .error e
  | .ok (ss, om) =>
    let colors := diffList RGBColor.diffI 0
      (a.interface_colors.take 25) (other.interface_colors.take 25)
    let rects := diffList Rect.diff 0
      (a.interface_rects.take 18) (other.interface_rects.take 18)
    .ok (ss.map MacNode.stringset ++ colors.map MacNode.color ++
      rects.map MacNode.rect, om)

/-- One round of the CRC-16/XMODEM bit loop: shift the 16-bit remainder left
one bit and xor in the polynomial 0x1021 when the top bit was set. -/
def crcRound (c : Nat) : Nat :=
  if 32768 ≤ c then (2 * c % 65536) ^^^ 4129 else 2 * c % 65536

/-- Iterated CRC rounds. -/
def crcRounds : Nat → Nat → Nat
  | 0, c => c
  | n + 1, c => crcRounds n (crcRound c)

/-- Per-byte step of boost::crc_optimal<16, 0x1021, 0, 0, false, false>:
xor the byte into the top 8 bits of the remainder, then run 8 rounds. -/
def crcByteStep (c b : Nat) : Nat :=
  crcRounds 8 (c ^^^ b * 256)

/-- CRC-16/XMODEM of a byte list: polynomial 0x1021, initial value 0, no
reflection, no final xor (src/resdiff.cpp:181-182, src/strdiff.cpp:97-98). -/
def crc16 (l : List Nat) : Nat :=
  l.foldl crcByteStep 0

/-- The envelope phase of MacBinary::load (src/resdiff.cpp:168-196,
src/strdiff.cpp:84-112) on the 128-byte header: byte 0 must be zero, byte 1
at most 63, byte 74 zero, byte 123 at most 0x81, and the CRC-16/XMODEM of
the first 124 bytes must equal the big-endian 16-bit value at bytes
124-125 ((header[124] << 8) | header[125], written arithmetically for byte
values).  On success the resource-fork offset 128 + round_up(data_length,
128) is computed from the 32-bit data-fork length at byte 83 in uint32
arithmetic. -/
def MacBinary.load (header : List Nat) : Except MacErr Nat :=
  if header.getD 0 0 ≠ 0 ∨ 63 < header.getD 1 0 ∨ header.getD 74 0 ≠ 0 ∨
      129 < header.getD 123 0 then
    .error .invalidEnvelope
  else if crc16 (header.take 124) ≠
      header.getD 124 0 * 256 + header.getD 125 0 then
    .error .invalidEnvelope
  else
    .ok ((128 + (((readU32D header 83 + 127) % 4294967296) &&& 4294967168)) %
      4294967296)

/-- Big-endian 16-bit read through the stream cursor (None when the source
is exhausted). -/
def readU16 (data : List Nat) (pos : Nat) : Option Nat :=
  match data[pos]?, data[pos + 1]? with
  | some a, some b => some (a * 256 + b)
  | _, _ => none

/-- Big-endian signed 16-bit read (big_int16_t). -/
def readI16 (data : List Nat) (pos : Nat) : Option Int :=
  (readU16 data pos).map (fun v => if v < 32768 then (v : Int) else (v : Int) - 65536)

/-- Big-endian 32-bit read through the stream cursor. -/
def readU32 (data : List Nat) (pos : Nat) : Option Nat :=
  match readU16 data pos, readU16 data (pos + 2) with
  | some a, some b => some (a * 65536 + b)
  | _, _ => none

/-- TypeListEntry (src/strdiff.cpp:47-51, src/resdiff.cpp:47-51). -/
structure TypeListEntry where
  rtype : List Nat
  num_refs : Int
  ref_list_offset : Int
deriving DecidableEq

/-- RefListEntry (src/strdiff.cpp:53-58, src/resdiff.cpp:53-58). -/
structure RefListEntry where
  id : Int
  name_list_offset : Int
  data_offset : Nat
  unused : Nat
deriving DecidableEq

/-- Sequential read of 8-byte type-list entries
{type: 4 bytes, num_refs: i16, ref_list_offset: i16}. -/
def readTypeEntries (data : List Nat) : Nat → Nat → Option (List TypeListEntry)
  | _, 0 => some []
  | pos, n + 1 =>
    match data[pos]?, data[pos + 1]?, data[pos + 2]?, data[pos + 3]?,
        readI16 data (pos + 4), readI16 data (pos + 6) with
    | some t0, some t1, some t2, some t3, some nr, some ro =>
      (readTypeEntries data (pos + 8) n).map
        (fun rest => ⟨[t0, t1, t2, t3], nr, ro⟩ :: rest)
    | _, _, _, _, _, _ => none

/-- The type-list read of MacBinary::load_resources (src/strdiff.cpp:134-139,
src/resdiff.cpp:218-223): a 16-bit stored count is read, incremented in
uint16 arithmetic (++num_types on big_uint16_t), and that many 8-byte
entries are read. -/
def loadTypeList (data : List Nat) (pos : Nat) : Option (List TypeListEntry) :=
  match readU16 data pos with
  | some n => readTypeEntries data (pos + 2) ((n + 1) % 65536)
  | none => none

/-- Sequential read of 12-byte reference-list entries
{id: i16, name_list_offset: i16, data_offset: u32, unused: u32}. -/
def readRefEntries (data : List Nat) : Nat → Nat → Option (List RefListEntry)
  | _, 0 => some []
  | pos, n + 1 =>
    match readI16 data pos, readI16 data (pos + 2), readU32 data (pos + 4),
        readU32 data (pos + 8) with
    | some id, some no, some dof, some un =>
      (readRefEntries data (pos + 12) n).map
        (fun rest => ⟨id, no, dof, un⟩ :: rest)
    | _, _, _, _ => none

/-- The reference-list read for one type-list entry
(src/strdiff.cpp:145-149, src/resdiff.cpp:231-235): the loop bound is
num_refs + 1 in int arithmetic, so num_refs + 1 entries are read (none when
num_refs is negative). -/
def loadRefList (data : List Nat) (pos : Nat) (e : TypeListEntry) :
    Option (List RefListEntry) :=
  readRefEntries data pos (e.num_refs + 1).toNat

/-- Replace the value stored with the first occurrence of key 129 in a
string-list map (used to state that the filename string list is dead to the
diff). -/
def rep129 (w : List MacStr) : StrMap → StrMap
  | [] => []
  | (k, v) :: rest =>
    if k = 129 then (k, w) :: rest else (k, v) :: rep129 w rest

theorem RGBColor.diffC_self (a : RGBColor) : RGBColor.diffC a a = none := by
  simp [RGBColor.diffC]

theorem RGBColor.diffI_self (i : Nat) (a : RGBColor) :
    RGBColor.diffI i a a = none := by
  simp [RGBColor.diffI]

theorem panel_diff_self (i : Nat) (a : ControlPanelDefinition) :
    ControlPanelDefinition.diff i a a = none := by
  simp [ControlPanelDefinition.diff]

theorem damage_def_diff_self (a : DamageDefinition) :
    DamageDefinition.diff a a = none := by
  simp [DamageDefinition.diff]

theorem damage_resp_diff_self (a : DamageResponse) (i : Nat) :
    DamageResponse.diff a a i = .ok none := by
  simp [DamageResponse.diff]

theorem fade_diff_self (i : Nat) (a : FadeDefinition) :
    FadeDefinition.diff i a a = none := by
  simp [FadeDefinition.diff]

theorem media_diff_self (i : Nat) (a : MediaDefinition) :
    MediaDefinition.diff i a a = none := by
  simp [MediaDefinition.diff, damage_def_diff_self]

theorem scenery_diff_self (i : Nat) (a : SceneryDefinition) :
    SceneryDefinition.diff i a a = none := by
  simp [SceneryDefinition.diff]

theorem ammo_diff_self (i : Nat)
    (a : WeaponInterfaceAmmoDefinition) :
    WeaponInterfaceAmmoDefinition.diff i a a = none := by
  simp [WeaponInterfaceAmmoDefinition.diff]

theorem weapon_diff_self (i : Nat)
    (a : WeaponInterfaceDefinition) :
    WeaponInterfaceDefinition.diff i a a = none := by
  simp [WeaponInterfaceDefinition.diff]

theorem rect_diff_self (i : Nat) (a : Rect) : Rect.diff i a a = none := by
  simp [Rect.diff]

theorem idxChanges_self (xs : List Int) : ∀ i, idxChanges i xs xs = [] := by
  induction xs with
  | nil => intro i; rfl
  | cons a as ih => intro i; simp [idxChanges, ih]

theorem strChanges_self (xs : List MacStr) : ∀ i, strChanges i xs xs = [] := by
  induction xs with
  | nil => intro i; rfl
  | cons a as ih => intro i; simp [strChanges, ih]

theorem diffList_self {α β : Type} (f : Nat → α → α → Option β)
    (hf : ∀ i a, f i a a = none) (xs : List α) :
    ∀ i, diffList f i xs xs = [] := by
  induction xs with
  | nil => intro i; rfl
  | cons a as ih => intro i; simp [diffList, hf, ih]

theorem penSizeNodes_self (ls : List LineDefinition) :
    ∀ i, penSizeNodes i ls ls = [] := by
  induction ls with
  | nil => intro i; rfl
  | cons l ls ih => intro i; simp [penSizeNodes, idxChanges_self, ih]

theorem fontSection_self (a : AnnotationDefinition) (ss : List Int) :
    ∀ i, fontSection a a i ss ss = .ok [] := by
  induction ss with
  | nil => intro i; rfl
  | cons s ss ih => intro i; simp [fontSection, ih]

theorem dmgSection_self (xs : List DamageResponse) :
    ∀ i, dmgSection i xs xs = .ok [] := by
  induction xs with
  | nil => intro i; rfl
  | cons a as ih => intro i; simp [dmgSection, damage_resp_diff_self, ih]

theorem tagLookup_mem {k : Tag} {v : List Nat} {m : TagMap} (h : (k, v) ∈ m) :
    (tagLookup k m).isSome := by
  induction m with
  | nil => cases h
  | cons p rest ih =>
    rcases List.mem_cons.mp h with h | h
    · subst h; simp [tagLookup]
    · by_cases hk : k = p.1
      · simp [tagLookup, hk]
      · simpa [tagLookup, hk] using ih h

theorem tagFold_all_present (l : List (Tag × List Nat)) :
    ∀ other : TagMap, (∀ p ∈ l, (tagLookup p.1 other).isSome) →
    tagFold other l = other := by
  induction l with
  | nil => intro other _; rfl
  | cons p rest ih =>
    intro other h
    have h1 : (tagLookup p.1 other).isSome := h p (by simp)
    have h2 : (tagGetOrInsert other p.1).2 = other := by
      unfold tagGetOrInsert
      cases hl : tagLookup p.1 other with
      | none => simp [hl] at h1
      | some v => simp
    calc tagFold other (p :: rest)
        = tagFold (tagGetOrInsert other p.1).2 rest := rfl
      _ = tagFold other rest := by rw [h2]
      _ = other := ih other (fun q hq => h q (by simp [hq]))

theorem tagFold_self (m : TagMap) : tagFold m m = m :=
  tagFold_all_present m m (fun p hp => tagLookup_mem (by simpa using hp))

theorem strLookup_mem_nodup {k : Int} {v : List MacStr} {m : StrMap}
    (hnd : (m.map Prod.fst).Nodup) (h : (k, v) ∈ m) : strLookup k m = some v := by
  induction m with
  | nil => cases h
  | cons p rest ih =>
    rw [List.map_cons, List.nodup_cons] at hnd
    obtain ⟨hp, hrest⟩ := hnd
    rcases List.mem_cons.mp h with h | h
    · subst h; simp [strLookup]
    · have hk : k ≠ p.1 := by
        intro he
        exact hp (by simpa [← he] using List.mem_map_of_mem Prod.fst h)
      simp [strLookup, hk, ih hrest h]

theorem diffStrings_all_found (bl : List (Int × List MacStr)) :
    ∀ other : StrMap, (∀ p ∈ bl, p.1 ≠ 129 → strLookup p.1 other = some p.2) →
    diffStrings other bl = .ok ([], other) := by
  induction bl with
  | nil => intro other _; rfl
  | cons p rest ih =>
    intro other h
    obtain ⟨id, v⟩ := p
    by_cases h129 : id = 129
    · simpa [diffStrings, h129] using ih other (fun q hq => h q (by simp [hq]))
    · have hl : strLookup id other = some v := h (id, v) (by simp) h129
      have hrest := ih other (fun q hq => h q (by simp [hq]))
      simp [diffStrings, h129, strGetOrInsert, hl, hrest, strChanges_self]

/-- C1: for every pair of identical decoded snapshots, the diff emits no
change node: Fuxstate::diff of a snapshot with itself produces the empty
node sequence (and leaves the unknown-tag map untouched), and
MacBinary::diff of a resource-fork snapshot with itself (its string map
having the distinct keys a std::map guarantees) emits no stringset, color,
or rect node. -/
theorem identical_snapshots_diff_empty :
    (∀ s : Fuxstate, Fuxstate.diff s s = .ok ([], s.tags)) ∧
    (∀ m : MacSnapshot, (m.strings.map Prod.fst).Nodup →
      MacSnapshot.diff m m = .ok ([], m.strings)) := by
  constructor
  · intro s
    unfold Fuxstate.diff
    rw [fontSection_self, dmgSection_self]
    rw [diffList_self _ panel_diff_self,
      diffList_self _ fade_diff_self,
      diffList_self _ RGBColor.diffI_self,
      diffList_self _ RGBColor.diffI_self,
      diffList_self _ (fun i l => RGBColor.diffI_self (i + 8) l.color),
      diffList_self _ media_diff_self,
      diffList_self _ (fun i (s : Int) => by simp),
      diffList_self _ scenery_diff_self,
      diffList_self _ weapon_diff_self]
    simp [RGBColor.diffI_self, penSizeNodes_self, tagFold_self]
  · intro m hnd
    have hs : diffStrings m.strings m.strings = .ok ([], m.strings) :=
      diffStrings_all_found m.strings m.strings
        (fun p hp _ => strLookup_mem_nodup hnd (by simpa using hp))
    unfold MacSnapshot.diff
    rw [hs]
    simp [diffList_self _ RGBColor.diffI_self, diffList_self _ rect_diff_self]

/-- Witness for C1 at concrete snapshots. -/
theorem identical_snapshots_diff_empty_witness :
    Fuxstate.diff
        ⟨⟨⟨0, 0, 0⟩, 0, 0, []⟩, [], [], [], [], [], ⟨0, 0, 0⟩, [], [], [], [],
          [([1, 2, 3, 4], [5])], []⟩
        ⟨⟨⟨0, 0, 0⟩, 0, 0, []⟩, [], [], [], [], [], ⟨0, 0, 0⟩, [], [], [], [],
          [([1, 2, 3, 4], [5])], []⟩ =
      .ok ([], [([1, 2, 3, 4], [5])]) ∧
    MacSnapshot.diff ⟨[(128, [[65]])], [], []⟩ ⟨[(128, [[65]])], [], []⟩ =
      .ok ([], [(128, [[65]])]) :=
  ⟨identical_snapshots_diff_empty.1 _,
    identical_snapshots_diff_empty.2 ⟨[(128, [[65]])], [], []⟩ (by decide)⟩

/-- C8: every packed 16-bit shape value reported in a scenery change (the
normal shape and the destroyed shape alike) is decomposed exactly as
collection = (v >> 8) & 0x1f, clut = v >> 11, sequence = v & 0xff; in
particular these formulas at v = 0x0807 give collection 8, clut 1,
sequence 7. -/
theorem scenery_shape_decomposition :
    (∀ (i : Nat) (a other : SceneryDefinition) (n : SceneryNode),
      SceneryDefinition.diff i a other = some n →
      (a.shape ≠ other.shape →
        n.normal_shape = some ⟨(other.shape >>> 8) &&& 0x1f,
          other.shape >>> 11, other.shape &&& 0xff⟩) ∧
      (a.destroyed_shape ≠ other.destroyed_shape →
        n.destroyed_shape = some ⟨(other.destroyed_shape >>> 8) &&& 0x1f,
          other.destroyed_shape >>> 11, other.destroyed_shape &&& 0xff⟩)) ∧
    (∀ (i : Nat) (a other : SceneryDefinition) (n : SceneryNode),
      SceneryDefinition.diff i a other = some n → other.shape = 0x0807 →
      a.shape ≠ other.shape → n.normal_shape = some ⟨8, 1, 7⟩) := by
  constructor
  · intro i a other n hd
    unfold SceneryDefinition.diff at hd
    split at hd
    · constructor
      · intro hs
        simp only [Option.some.injEq] at hd
        rw [← hd]
        simp [hs]
      · intro hs
        simp only [Option.some.injEq] at hd
        rw [← hd]
        simp [hs]
    · exact absurd hd (by simp)
  · intro i a other n hd hv hs
    unfold SceneryDefinition.diff at hd
    split at hd
    · simp only [Option.some.injEq] at hd
      rw [← hd]
      simp [hs, hv]
      decide
    · exact absurd hd (by simp)

/-- Witness for C8: a scenery record whose shape changes from 0 to 0x0807. -/
theorem scenery_shape_decomposition_witness :
    (⟨0, 0, 0, 0, 0, some ⟨8, 1, 7⟩, none⟩ : SceneryNode).normal_shape =
      some ⟨8, 1, 7⟩ :=
  scenery_shape_decomposition.2 0 ⟨0, 0, 0, 0, 0, 0⟩ ⟨0, 0x0807, 0, 0, 0, 0⟩
    ⟨0, 0, 0, 0, 0, some ⟨8, 1, 7⟩, none⟩ (by decide) (by decide) (by decide)

theorem diffList_ne_at {α β : Type} (f : Nat → α → α → Option β)
    (hf : ∀ i a, f i a a = none) (pre : List α) :
    ∀ (i : Nat) (old nw : α) (post : List α),
    diffList f i (pre ++ old :: post) (pre ++ nw :: post) =
      (f (i + pre.length) old nw).toList := by
  induction pre with
  | nil =>
    intro i old nw post
    simp only [List.nil_append, List.length_nil, Nat.add_zero, diffList]
    cases h : f i old nw with
    | none => simp [diffList_self f hf]
    | some n => simp [diffList_self f hf]
  | cons a as ih =>
    intro i old nw post
    simp only [List.cons_append, diffList, hf, List.append_eq]
    rw [ih]
    simp only [List.length_cons]
    ring_nf

theorem RGBColor.diffC_ne {a b : RGBColor} (h : a ≠ b) :
    RGBColor.diffC a b = some ⟨b.r, b.g, b.b⟩ := by
  unfold RGBColor.diffC
  split
  · rfl
  · next hcond =>
    push_neg at hcond
    obtain ⟨h1, h2, h3⟩ := hcond
    exact absurd (by cases a; cases b; simp_all) h

/-- C2: two chunk-container snapshots that differ only in the radius of the
scenery record at array index 7 (the fixed array having 61 entries) diff to
exactly one change node, a scenery object node for index 7 carrying the new
radius together with the record's current flags, height, and
destroyed-effect, and no node for any other index; and in general, when
only a nested composite sub-field differs (a fader's color), the
parent-level node re-emits every other parent attribute at its current
value alongside the nested child. -/
theorem scenery_radius_single_node :
    (∀ (base : Fuxstate) (pre post : List SceneryDefinition)
      (old : SceneryDefinition) (r : Int),
      base.scenery_definitions = pre ++ old :: post →
      pre.length = 7 → post.length = 53 →
      r ≠ old.radius →
      Fuxstate.diff base { base with scenery_definitions :=
        pre ++ { old with radius := r } :: post } =
        .ok ([ChangeNode.scenery ⟨7, old.flags, r, old.height,
          old.destroyed_effect, none, none⟩], base.tags)) ∧
    (∀ (i : Nat) (f : FadeDefinition) (c : RGBColor),
      c ≠ f.color →
      FadeDefinition.diff i f { f with color := c } =
        some ⟨i, f.proc, f.initial_transparency, f.final_transparency,
          f.period, f.flags, f.priority, some ⟨c.r, c.g, c.b⟩⟩) := by
  constructor
  · intro base pre post old r heq hpre hpost hr
    unfold Fuxstate.diff
    rw [fontSection_self, dmgSection_self]
    rw [diffList_self _ panel_diff_self,
      diffList_self _ fade_diff_self,
      diffList_self _ RGBColor.diffI_self,
      diffList_self _ RGBColor.diffI_self,
      diffList_self _ (fun i l => RGBColor.diffI_self (i + 8) l.color),
      diffList_self _ media_diff_self,
      diffList_self _ (fun i (s : Int) => by simp),
      diffList_self _ weapon_diff_self]
    have hscen : diffList SceneryDefinition.diff 0
        base.scenery_definitions
        ({ base with scenery_definitions :=
          pre ++ { old with radius := r } :: post } : Fuxstate).scenery_definitions =
        [⟨7, old.flags, r, old.height, old.destroyed_effect, none, none⟩] := by
      show diffList SceneryDefinition.diff 0 base.scenery_definitions
        (pre ++ { old with radius := r } :: post) =
        [⟨7, old.flags, r, old.height, old.destroyed_effect, none, none⟩]
      rw [heq, diffList_ne_at _ scenery_diff_self, hpre]
      have : SceneryDefinition.diff 7 old { old with radius := r } =
          some ⟨7, old.flags, r, old.height, old.destroyed_effect, none, none⟩ := by
        have hr2 : old.radius ≠ r := Ne.symm hr
        simp [SceneryDefinition.diff, hr2]
      rw [this]
      rfl
    rw [hscen]
    simp [RGBColor.diffI_self, penSizeNodes_self, tagFold_self]
  · intro i f c hc
    have hc2 : f.color ≠ c := Ne.symm hc
    simp [FadeDefinition.diff, hc2, RGBColor.diffC_ne hc2]

/-- Witness for C2 at a concrete 61-entry scenery array and a concrete
fader whose color alone changes. -/
theorem scenery_radius_single_node_witness :
    Fuxstate.diff
        ⟨⟨⟨0, 0, 0⟩, 0, 0, []⟩, [], [], [], [], [], ⟨0, 0, 0⟩, [], [], [],
          List.replicate 61 ⟨0, 0, 0, 0, 0, 0⟩, [], []⟩
        ⟨⟨⟨0, 0, 0⟩, 0, 0, []⟩, [], [], [], [], [], ⟨0, 0, 0⟩, [], [], [],
          List.replicate 7 ⟨0, 0, 0, 0, 0, 0⟩ ++ ⟨0, 0, 5, 0, 0, 0⟩ ::
            List.replicate 53 ⟨0, 0, 0, 0, 0, 0⟩, [], []⟩ =
      .ok ([ChangeNode.scenery ⟨7, 0, 5, 0, 0, none, none⟩], []) ∧
    FadeDefinition.diff 2 ⟨0, ⟨0, 0, 0⟩, 0, 0, 0, 0, 0⟩
        ⟨0, ⟨9, 0, 0⟩, 0, 0, 0, 0, 0⟩ =
      some ⟨2, 0, 0, 0, 0, 0, 0, some ⟨9, 0, 0⟩⟩ :=
  ⟨scenery_radius_single_node.1 _ (List.replicate 7 ⟨0, 0, 0, 0, 0, 0⟩)
      (List.replicate 53 ⟨0, 0, 0, 0, 0, 0⟩) ⟨0, 0, 0, 0, 0, 0⟩ 5
      (by decide) (by decide) (by decide) (by decide),
    scenery_radius_single_node.2 2 ⟨0, ⟨0, 0, 0⟩, 0, 0, 0, 0, 0⟩ ⟨9, 0, 0⟩
      (by decide)⟩

/-- C9: the unused shape_frequency field of a media (liquid) record is
excluded from comparison: a record differing from another only in
shape_frequency diffs as empty, and, as a two-run noninterference fact, the
diff output is completely independent of both records' shape_frequency
values. -/
theorem media_shape_frequency_ignored :
    (∀ (i : Nat) (m : MediaDefinition) (f : Int),
      MediaDefinition.diff i m { m with shape_frequency := f } = none) ∧
    (∀ (i : Nat) (a b : MediaDefinition) (f1 f2 : Int),
      MediaDefinition.diff i { a with shape_frequency := f1 }
        { b with shape_frequency := f2 } = MediaDefinition.diff i a b) := by
  constructor
  · intro i m f
    simp [MediaDefinition.diff, damage_def_diff_self]
  · intro i a b f1 f2
    rfl

theorem diffStrings_keys_present (bl : List (Int × List MacStr)) :
    ∀ (other : StrMap) (res : List StringsetNode × StrMap),
    (∀ p ∈ bl, p.1 ≠ 129 → (strLookup p.1 other).isSome) →
    diffStrings other bl = .ok res → res.2 = other := by
  induction bl with
  | nil =>
    intro other res _ h
    rw [← Except.ok.inj h]
  | cons p rest ih =>
    intro other res hp h
    obtain ⟨id, v⟩ := p
    by_cases h129 : id = 129
    · rw [diffStrings, if_pos h129] at h
      exact ih other res (fun q hq => hp q (by simp [hq])) h
    · have hl : (strLookup id other).isSome := hp (id, v) (by simp) h129
      obtain ⟨w, hw⟩ := Option.isSome_iff_exists.mp hl
      rw [diffStrings, if_neg h129] at h
      rw [show strGetOrInsert other id = (w, other) by
        simp [strGetOrInsert, hw]] at h
      by_cases hlen : v.length ≠ w.length
      · rw [if_pos hlen] at h
        cases h
      · rw [if_neg hlen] at h
        cases hrec : diffStrings other rest with
        | error e => rw [hrec] at h; cases h
        | ok q =>
          obtain ⟨nodes, om⟩ := q
          have hom : om = other :=
            ih other (nodes, om) (fun q hq => hp q (by simp [hq])) hrec
          rw [hrec] at h
          by_cases hch : (strChanges 0 v w).isEmpty
          · simp only [hch, if_pos] at h
            rw [← Except.ok.inj h]
            exact hom
          · simp only [hch, if_neg, Bool.false_eq_true, not_false_eq_true] at h
            rw [← Except.ok.inj h]
            exact hom

theorem Fuxstate.diff_snd {a other : Fuxstate} {res : List ChangeNode × TagMap}
    (h : Fuxstate.diff a other = .ok res) :
    res.2 = tagFold other.tags a.tags := by
  unfold Fuxstate.diff at h
  split at h
  · cases h
  · split at h
    · cases h
    · simpa using congrArg Prod.snd (Except.ok.inj h).symm

/-- C4 (amended): diff never mutates the base snapshot (which the engine
only reads), and it mutates the modified snapshot only through std::map
operator access in the tag loop (resp. the string-list loop): a
default-constructed empty entry is inserted into the modified snapshot's
unknown-tag map (resp. string-list map) for every key the base map has and
the modified map lacks.  When the modified map already contains every such
key, both snapshots are left completely unchanged. -/
theorem diff_leaves_inputs_unchanged_amended :
    (∀ (a other : Fuxstate) (res : List ChangeNode × TagMap),
      Fuxstate.diff a other = .ok res →
      (∀ p ∈ a.tags, (tagLookup p.1 other.tags).isSome) →
      res.2 = other.tags) ∧
    (∀ (a other : MacSnapshot) (res : List MacNode × StrMap),
      MacSnapshot.diff a other = .ok res →
      (∀ p ∈ a.strings, p.1 ≠ 129 → (strLookup p.1 other.strings).isSome) →
      res.2 = other.strings) := by
  constructor
  · intro a other res h hp
    rw [Fuxstate.diff_snd h]
    exact tagFold_all_present a.tags other.tags hp
  · intro a other res h hp
    unfold MacSnapshot.diff at h
    cases hds : diffStrings other.strings a.strings with
    | error e => rw [hds] at h; cases h
    | ok q =>
      obtain ⟨ss, om⟩ := q
      rw [hds] at h
      have : res.2 = om := by
        simpa using congrArg Prod.snd (Except.ok.inj h).symm
      rw [this]
      exact diffStrings_keys_present a.strings other.strings (ss, om) hp hds

/-- Witness for C4 (amended): tag maps with equal key sets (the values may
differ) are not mutated. -/
theorem diff_leaves_inputs_unchanged_amended_witness :
    (([] : List ChangeNode), ([([88, 120, 120, 120], [2])] : TagMap)).2 =
      [([88, 120, 120, 120], [2])] :=
  diff_leaves_inputs_unchanged_amended.1
    ⟨⟨⟨0, 0, 0⟩, 0, 0, []⟩, [], [], [], [], [], ⟨0, 0, 0⟩, [], [], [], [],
      [([88, 120, 120, 120], [1])], []⟩
    ⟨⟨⟨0, 0, 0⟩, 0, 0, []⟩, [], [], [], [], [], ⟨0, 0, 0⟩, [], [], [], [],
      [([88, 120, 120, 120], [2])], []⟩
    ([], [([88, 120, 120, 120], [2])]) (by rfl) (by decide)

/-- Counterexample for C4 as stated: diffing a base snapshot that has an
unknown tag the modified snapshot lacks inserts an empty entry into the
modified snapshot's unknown-tag map, so the modified snapshot's map after
the diff differs from what it was before. -/
theorem diff_mutates_modified_counterexample :
    Fuxstate.diff
        ⟨⟨⟨0, 0, 0⟩, 0, 0, []⟩, [], [], [], [], [], ⟨0, 0, 0⟩, [], [], [], [],
          [([88, 120, 120, 120], [1])], []⟩
        ⟨⟨⟨0, 0, 0⟩, 0, 0, []⟩, [], [], [], [], [], ⟨0, 0, 0⟩, [], [], [], [],
          [], []⟩ =
      .ok ([], [([88, 120, 120, 120], [])]) ∧
    ([([88, 120, 120, 120], [])] : TagMap) ≠ [] := by
  constructor
  · rfl
  · decide

theorem fontSection_ok_of_fontName {a other : AnnotationDefinition}
    {nm : String} (hnm : fontName other.font = .ok nm) (ss : List Int) :
    ∀ (i : Nat) (oss : List Int), ∃ out, fontSection a other i ss oss = .ok out := by
  induction ss with
  | nil => intro i oss; exact ⟨[], rfl⟩
  | cons s ss ih =>
    intro i oss
    cases oss with
    | nil => exact ⟨[], rfl⟩
    | cons os oss =>
      obtain ⟨rest, hrest⟩ := ih (i + 1) oss
      by_cases hc : a.font ≠ other.font ∨ a.face ≠ other.face ∨ s ≠ os
      · exact ⟨⟨i, nm, os, other.face⟩ :: rest, by
          rw [fontSection, if_pos hc, hnm, hrest]⟩
      · exact ⟨rest, by rw [fontSection, if_neg hc, hrest]⟩

theorem dmgSection_ok (as : List DamageResponse) :
    ∀ (i : Nat) (bs : List DamageResponse),
    (∀ p ∈ as.zip bs, p.1.dtype = p.2.dtype) →
    ∃ out, dmgSection i as bs = .ok out := by
  induction as with
  | nil => intro i bs _; exact ⟨[], rfl⟩
  | cons a as ih =>
    intro i bs hp
    cases bs with
    | nil => exact ⟨[], rfl⟩
    | cons b bs =>
      obtain ⟨rest, hrest⟩ := ih (i + 1) bs (fun q hq => hp q (by simp [hq]))
      have ht : a.dtype = b.dtype := hp (a, b) (by simp)
      have hd : ∃ n, DamageResponse.diff a b i = .ok n := by
        unfold DamageResponse.diff
        rw [if_neg (by simp [ht])]
        split
        · exact ⟨_, rfl⟩
        · exact ⟨_, rfl⟩
      obtain ⟨n, hn⟩ := hd
      exact ⟨n.toList ++ rest, by rw [dmgSection, hn, hrest]⟩

theorem strLookup_insertSorted_self (k : Int) (v : List MacStr)
    (m : StrMap) (hm : strLookup k m = none) :
    strLookup k (strInsertSorted k v m) = some v := by
  induction m with
  | nil => simp [strInsertSorted, strLookup]
  | cons p rest ih =>
    obtain ⟨k2, v2⟩ := p
    rw [strLookup] at hm
    by_cases hk : k = k2
    · simp [hk] at hm
    · rw [if_neg hk] at hm
      rw [strInsertSorted]
      by_cases hlt : k < k2
      · simp [hlt, strLookup]
      · rw [if_neg hlt, strLookup, if_neg hk]
        exact ih hm

theorem strLookup_insertSorted_ne (k : Int) (v : List MacStr)
    (k2 : Int) (hne : k2 ≠ k) (m : StrMap) :
    strLookup k2 (strInsertSorted k v m) = strLookup k2 m := by
  induction m with
  | nil => simp [strInsertSorted, strLookup, hne]
  | cons p rest ih =>
    obtain ⟨k3, v3⟩ := p
    rw [strInsertSorted]
    by_cases hlt : k < k3
    · rw [if_pos hlt, strLookup, if_neg hne, strLookup]
    · rw [if_neg hlt, strLookup, strLookup]
      by_cases h3 : k2 = k3
      · rw [if_pos h3, if_pos h3]
      · rw [if_neg h3, if_neg h3]
        exact ih

theorem strGetOrInsert_getD (m : StrMap) (k : Int) :
    (strGetOrInsert m k).1 = (strLookup k m).getD [] ∧
    ∀ k2, (strLookup k2 (strGetOrInsert m k).2).getD [] =
      (strLookup k2 m).getD [] := by
  unfold strGetOrInsert
  cases hl : strLookup k m with
  | some v => exact ⟨rfl, fun k2 => rfl⟩
  | none =>
    refine ⟨rfl, fun k2 => ?_⟩
    by_cases hk : k2 = k
    · subst hk
      rw [strLookup_insertSorted_self k2 [] m hl, hl]
      rfl
    · rw [strLookup_insertSorted_ne k [] k2 hk m]

theorem diffStrings_ok (bl : List (Int × List MacStr)) :
    ∀ other : StrMap,
    (∀ p ∈ bl, p.1 ≠ 129 → ((strLookup p.1 other).getD []).length = p.2.length) →
    ∃ res, diffStrings other bl = .ok res := by
  induction bl with
  | nil => intro other _; exact ⟨([], other), rfl⟩
  | cons p rest ih =>
    intro other hp
    obtain ⟨id, v⟩ := p
    by_cases h129 : id = 129
    · obtain ⟨res, hres⟩ := ih other (fun q hq => hp q (by simp [hq]))
      exact ⟨res, by rw [diffStrings, if_pos h129, hres]⟩
    · have hget := strGetOrInsert_getD other id
      have hlen : v.length = (strGetOrInsert other id).1.length := by
        rw [hget.1]
        exact (hp (id, v) (by simp) h129).symm
      have hp2 : ∀ p ∈ rest, p.1 ≠ 129 →
          ((strLookup p.1 (strGetOrInsert other id).2).getD []).length =
            p.2.length := by
        intro q hq hq129
        rw [hget.2 q.1]
        exact hp q (by simp [hq]) hq129
      obtain ⟨⟨nodes, om⟩, hres⟩ := ih (strGetOrInsert other id).2 hp2
      by_cases hch : (strChanges 0 v (strGetOrInsert other id).1).isEmpty
      · exact ⟨(nodes, om), by
          rw [diffStrings, if_neg h129, if_neg (by simp [hlen]), hres]
          simp [hch]⟩
      · exact ⟨(⟨id, strChanges 0 v (strGetOrInsert other id).1⟩ :: nodes, om), by
          rw [diffStrings, if_neg h129, if_neg (by simp [hlen]), hres]
          simp [hch]⟩

/-- C5 (amended): the structural diff has exactly three diff-time fatal
conditions, all others being classified changed-or-unchanged: the
damage-response key-field mismatch (IncomparableSnapshots), a string list
whose element count differs between the snapshots (a fatal
not-yet-implemented error), and an overhead-map font diff whose modified
font id is neither 4 (Monaco) nor 22 (Courier).  Under the matching-count,
matching-key, known-font hypotheses the diff always returns a changeset. -/
theorem diff_error_conditions_amended :
    (∀ a other : Fuxstate,
      (∀ p ∈ a.damage_responses.zip other.damage_responses,
        p.1.dtype = p.2.dtype) →
      (a.annotation_definition = other.annotation_definition ∨
        other.annotation_definition.font = 4 ∨
        other.annotation_definition.font = 22) →
      ∃ res, Fuxstate.diff a other = .ok res) ∧
    (∀ a other : MacSnapshot,
      (∀ p ∈ a.strings, p.1 ≠ 129 →
        ((strLookup p.1 other.strings).getD []).length = p.2.length) →
      ∃ res, MacSnapshot.diff a other = .ok res) := by
  constructor
  · intro a other hd hf
    have hfs : ∃ fonts, fontSection a.annotation_definition
        other.annotation_definition 0 a.annotation_definition.sizes
        other.annotation_definition.sizes = .ok fonts := by
      rcases hf with hf | hf | hf
      · rw [hf]
        exact ⟨[], fontSection_self _ _ 0⟩
      · exact fontSection_ok_of_fontName (by rw [hf]; rfl) _ 0 _
      · exact fontSection_ok_of_fontName (by rw [hf]; rfl) _ 0 _
    obtain ⟨fonts, hfonts⟩ := hfs
    obtain ⟨dmgs, hdmgs⟩ := dmgSection_ok a.damage_responses 0
      other.damage_responses hd
    exact ⟨_, by unfold Fuxstate.diff; rw [hfonts, hdmgs]⟩
  · intro a other hs
    obtain ⟨⟨nodes, om⟩, hres⟩ := diffStrings_ok a.strings other.strings hs
    exact ⟨_, by unfold MacSnapshot.diff; rw [hres]⟩

/-- Witness for C5 (amended) at concrete snapshots that differ but satisfy
the three conditions. -/
theorem diff_error_conditions_amended_witness :
    (∃ res, Fuxstate.diff
        ⟨⟨⟨0, 0, 0⟩, 4, 0, [9]⟩, [], [⟨1, 0, 0, 0, 0, 0⟩], [], [], [],
          ⟨0, 0, 0⟩, [], [], [], [], [], []⟩
        ⟨⟨⟨0, 0, 0⟩, 4, 0, [12]⟩, [], [⟨1, 5, 0, 0, 0, 0⟩], [], [], [],
          ⟨0, 0, 0⟩, [], [], [], [], [], []⟩ = .ok res) ∧
    (∃ res, MacSnapshot.diff ⟨[(128, [[65]])], [], []⟩
        ⟨[(128, [[66]])], [], []⟩ = .ok res) :=
  ⟨diff_error_conditions_amended.1 _ _ (by decide) (by decide),
    diff_error_conditions_amended.2 _ _ (by decide)⟩

/-- Counterexample for C5 as stated: a string list whose element count
differs between the two snapshots is not classified changed-or-unchanged:
the diff raises the fatal not-yet-implemented string-count error
(src/strdiff.cpp:195-198, src/resdiff.cpp:347-350), a diff-time error other
than the key-field mismatch. -/
theorem diff_string_count_error_counterexample :
    MacSnapshot.diff ⟨[(128, [[]])], [], []⟩ ⟨[], [], []⟩ =
      .error .numStringsMismatch := by
  rfl

set_option maxRecDepth 40000 in
/-- C3 (code-bug evidence): Fuxstate::load validates every known tag's
declared payload length against its mandated constant (a mismatched Clfx
length is rejected), but the Damg arm's check is the assignment
assert(header.length = 288), which always passes: a Damg chunk whose
declared length is 100 is decoded without any error, the loader simply
reading 288 payload bytes. -/
theorem damg_length_check_never_fails :
    Fuxstate.load (tagDamg ++ [0, 0, 0, 100] ++ List.replicate 288 0) =
      .ok [(tagDamg, 100)] ∧
    Fuxstate.load (tagClfx ++ [0, 0, 0, 100] ++ List.replicate 288 0) =
      .error .corruptContainer := by
  constructor
  · rfl
  · rfl

theorem readTypeEntries_length (data : List Nat) :
    ∀ (n pos : Nat) (tl : List TypeListEntry),
    readTypeEntries data pos n = some tl → tl.length = n := by
  intro n
  induction n with
  | zero =>
    intro pos tl h
    have h2 : some ([] : List TypeListEntry) = some tl := h
    rw [← Option.some.inj h2]
    rfl
  | succ n ih =>
    intro pos tl h
    rw [readTypeEntries] at h
    split at h
    · next t0 t1 t2 t3 nr ro heq0 heq1 heq2 heq3 heq4 heq5 =>
      cases hrec : readTypeEntries data (pos + 8) n with
      | none => rw [hrec] at h; cases h
      | some rest =>
        rw [hrec] at h
        simp only [Option.map_some'] at h
        rw [← Option.some.inj h]
        simp [ih (pos + 8) rest hrec]
    · cases h

theorem readRefEntries_length (data : List Nat) :
    ∀ (n pos : Nat) (rl : List RefListEntry),
    readRefEntries data pos n = some rl → rl.length = n := by
  intro n
  induction n with
  | zero =>
    intro pos rl h
    have h2 : some ([] : List RefListEntry) = some rl := h
    rw [← Option.some.inj h2]
    rfl
  | succ n ih =>
    intro pos rl h
    rw [readRefEntries] at h
    split at h
    · next id no dof un heq0 heq1 heq2 heq3 =>
      cases hrec : readRefEntries data (pos + 12) n with
      | none => rw [hrec] at h; cases h
      | some rest =>
        rw [hrec] at h
        simp only [Option.map_some'] at h
        rw [← Option.some.inj h]
        simp [ih (pos + 12) rest hrec]
    · cases h

/-- C7 (amended): the resource-map decoder reads stored-count-plus-one
entries, the type-list count being incremented in 16-bit arithmetic: a type
list whose stored count field is n is decoded as (n + 1) mod 2^16 type
entries (the ++ on the 16-bit count wraps a stored 65535 to 0), and a
type-list entry whose stored num_refs field is 0 is decoded as exactly 1
reference-list entry. -/
theorem type_list_count_plus_one :
    (∀ (data : List Nat) (pos n : Nat) (tl : List TypeListEntry),
      readU16 data pos = some n →
      loadTypeList data pos = some tl →
      tl.length = (n + 1) % 65536) ∧
    (∀ (data : List Nat) (pos : Nat) (e : TypeListEntry)
      (rl : List RefListEntry),
      e.num_refs = 0 →
      loadRefList data pos e = some rl →
      rl.length = 1) := by
  constructor
  · intro data pos n tl hn h
    rw [loadTypeList, hn] at h
    exact readTypeEntries_length data ((n + 1) % 65536) (pos + 2) tl h
  · intro data pos e rl hnr h
    rw [loadRefList, hnr] at h
    exact readRefEntries_length data 1 pos rl h

/-- Witness for C7 (amended): a stored type count of 1 decodes as 2 entries
and a stored num_refs of 0 decodes as 1 reference entry. -/
theorem type_list_count_plus_one_witness :
    ([⟨[0, 0, 0, 0], 0, 0⟩, ⟨[0, 0, 0, 0], 0, 0⟩] : List TypeListEntry).length =
      (1 + 1) % 65536 ∧
    ([⟨0, 0, 0, 0⟩] : List RefListEntry).length = 1 :=
  ⟨type_list_count_plus_one.1 ([0, 1] ++ List.replicate 16 0) 0 1
      [⟨[0, 0, 0, 0], 0, 0⟩, ⟨[0, 0, 0, 0], 0, 0⟩] (by rfl) (by rfl),
    type_list_count_plus_one.2 (List.replicate 12 0) 0 ⟨[83, 84, 82, 35], 0, 0⟩
      [⟨0, 0, 0, 0⟩] rfl (by rfl)⟩

/-- Counterexample for C7 as stated: a type list whose stored count field
is 65535 is decoded as 0 entries, not 65536: the increment of the 16-bit
count wraps. -/
theorem type_list_count_wraps_counterexample :
    readU16 [255, 255] 0 = some 65535 ∧
    loadTypeList [255, 255] 0 = some [] ∧
    ([] : List TypeListEntry).length ≠ 65535 + 1 := by
  refine ⟨rfl, rfl, ?_⟩
  decide

theorem strLookup_rep129 (w : List MacStr) (m : StrMap) (k : Int)
    (hk : k ≠ 129) : strLookup k (rep129 w m) = strLookup k m := by
  induction m with
  | nil => rfl
  | cons p rest ih =>
    obtain ⟨k2, v2⟩ := p
    by_cases h2 : k2 = 129
    · subst h2
      simp [rep129, strLookup, hk]
    · by_cases hkk : k = k2
      · simp [rep129, strLookup, h2, hkk]
      · simp [rep129, strLookup, h2, hkk, ih]

theorem strInsertSorted_rep129 (k : Int) (hk : k ≠ 129) (v : List MacStr)
    (w : List MacStr) (m : StrMap) :
    strInsertSorted k v (rep129 w m) = rep129 w (strInsertSorted k v m) := by
  induction m with
  | nil => simp [rep129, strInsertSorted, hk]
  | cons p rest ih =>
    obtain ⟨k2, v2⟩ := p
    by_cases h2 : k2 = 129
    · subst h2
      rw [rep129, if_pos rfl, strInsertSorted, strInsertSorted]
      by_cases hlt : k < 129
      · rw [if_pos hlt, if_pos hlt, rep129, if_neg hk, rep129, if_pos rfl]
      · rw [if_neg hlt, if_neg hlt, rep129, if_pos rfl]
    · rw [rep129, if_neg h2, strInsertSorted, strInsertSorted]
      by_cases hlt : k < k2
      · rw [if_pos hlt, if_pos hlt, rep129, if_neg hk, rep129, if_neg h2]
      · rw [if_neg hlt, if_neg hlt, rep129, if_neg h2, ih]

theorem strGetOrInsert_rep129 (m : StrMap) (k : Int) (w : List MacStr)
    (hk : k ≠ 129) :
    (strGetOrInsert (rep129 w m) k).1 = (strGetOrInsert m k).1 ∧
    (strGetOrInsert (rep129 w m) k).2 = rep129 w (strGetOrInsert m k).2 := by
  unfold strGetOrInsert
  rw [strLookup_rep129 w m k hk]
  cases strLookup k m with
  | some v => exact ⟨rfl, rfl⟩
  | none => exact ⟨rfl, strInsertSorted_rep129 k hk [] w m⟩

theorem diffStrings_rep129_other (bl : List (Int × List MacStr)) :
    ∀ (m : StrMap) (w : List MacStr),
    diffStrings (rep129 w m) bl =
      Except.map (fun r => (r.1, rep129 w r.2)) (diffStrings m bl) := by
  induction bl with
  | nil => intro m w; rfl
  | cons p rest ih =>
    intro m w
    obtain ⟨id, v⟩ := p
    by_cases h129 : id = 129
    · rw [diffStrings, if_pos h129, diffStrings, if_pos h129, ih]
    · have hg := strGetOrInsert_rep129 m id w h129
      rw [diffStrings, if_neg h129, diffStrings, if_neg h129, hg.1, hg.2]
      by_cases hlen : v.length ≠ (strGetOrInsert m id).1.length
      · rw [if_pos hlen, if_pos hlen]
        rfl
      · rw [if_neg hlen, if_neg hlen, ih]
        cases diffStrings (strGetOrInsert m id).2 rest with
        | error e => rfl
        | ok q =>
          obtain ⟨nodes, om⟩ := q
          by_cases hch : (strChanges 0 v (strGetOrInsert m id).1).isEmpty
          · simp [Except.map, hch]
          · simp [Except.map, hch]

theorem diffStrings_rep129_base (bl : List (Int × List MacStr)) :
    ∀ (other : StrMap) (w : List MacStr),
    diffStrings other (rep129 w bl) = diffStrings other bl := by
  induction bl with
  | nil => intro other w; rfl
  | cons p rest ih =>
    intro other w
    obtain ⟨id, v⟩ := p
    by_cases h129 : id = 129
    · subst h129
      rw [rep129, if_pos rfl, diffStrings, if_pos rfl, diffStrings, if_pos rfl]
    · rw [rep129, if_neg h129]
      simp only [diffStrings, if_neg h129, ih]

theorem diffStrings_no129 (bl : List (Int × List MacStr)) :
    ∀ (other : StrMap) (res : List StringsetNode × StrMap),
    diffStrings other bl = .ok res →
    ∀ n ∈ res.1, n.index ≠ 129 := by
  induction bl with
  | nil =>
    intro other res h n hn
    rw [← Except.ok.inj h] at hn
    cases hn
  | cons p rest ih =>
    intro other res h n hn
    obtain ⟨id, v⟩ := p
    by_cases h129 : id = 129
    · rw [diffStrings, if_pos h129] at h
      exact ih other res h n hn
    · simp only [diffStrings, if_neg h129] at h
      split at h
      · cases h
      · cases hrec : diffStrings (strGetOrInsert other id).2 rest with
        | error e => rw [hrec] at h; cases h
        | ok q =>
          obtain ⟨nodes, om⟩ := q
          rw [hrec] at h
          by_cases hch : (strChanges 0 v (strGetOrInsert other id).1).isEmpty
          · simp only [hch, if_pos] at h
            rw [← Except.ok.inj h] at hn
            exact ih _ (nodes, om) hrec n hn
          · simp only [hch, Bool.false_eq_true, if_false] at h
            rw [← Except.ok.inj h] at hn
            rcases List.mem_cons.mp hn with hn | hn
            · rw [hn]
              exact h129
            · exact ih _ (nodes, om) hrec n hn

/-- C10: the string list with numeric id 129 (filenames) is dead to the
resource-fork diff: no stringset node with index 129 is ever emitted, and
replacing the id-129 list of either snapshot with anything (content or
element count) changes neither the emitted node sequence nor the error
behavior. -/
theorem stringset_129_excluded :
    (∀ (a other : MacSnapshot) (res : List MacNode × StrMap),
      MacSnapshot.diff a other = .ok res →
      ∀ s : StringsetNode, MacNode.stringset s ∈ res.1 → s.index ≠ 129) ∧
    (∀ (a other : MacSnapshot) (v w : List MacStr),
      MacSnapshot.diff { a with strings := rep129 v a.strings } other =
        MacSnapshot.diff a other ∧
      Except.map Prod.fst (MacSnapshot.diff a
          { other with strings := rep129 w other.strings }) =
        Except.map Prod.fst (MacSnapshot.diff a other)) := by
  constructor
  · intro a other res h s hs
    unfold MacSnapshot.diff at h
    cases hds : diffStrings other.strings a.strings with
    | error e => rw [hds] at h; cases h
    | ok q =>
      obtain ⟨ss, om⟩ := q
      rw [hds] at h
      rw [← Except.ok.inj h] at hs
      simp only [List.mem_append, List.mem_map] at hs
      rcases hs with (⟨t, ht, hts⟩ | ⟨t, ht, hts⟩) | ⟨t, ht, hts⟩
      · obtain rfl := MacNode.stringset.inj hts
        exact diffStrings_no129 a.strings other.strings (ss, om) hds t ht
      · cases hts
      · cases hts
  · intro a other v w
    obtain ⟨as, ac, ar⟩ := a
    obtain ⟨os, oc, orects⟩ := other
    constructor
    · show (match diffStrings os (rep129 v as) with
        | Except.error e => (Except.error e : Except DiffErr (List MacNode × StrMap))
        | Except.ok (ss, om) =>
          Except.ok (ss.map MacNode.stringset ++
            (diffList RGBColor.diffI 0 (ac.take 25) (oc.take 25)).map
              MacNode.color ++
            (diffList Rect.diff 0 (ar.take 18) (orects.take 18)).map
              MacNode.rect, om)) = _
      rw [diffStrings_rep129_base as os v]
      rfl
    · show Except.map Prod.fst (match diffStrings (rep129 w os) as with
        | Except.error e => (Except.error e : Except DiffErr (List MacNode × StrMap))
        | Except.ok (ss, om) =>
          Except.ok (ss.map MacNode.stringset ++
            (diffList RGBColor.diffI 0 (ac.take 25) (oc.take 25)).map
              MacNode.color ++
            (diffList Rect.diff 0 (ar.take 18) (orects.take 18)).map
              MacNode.rect, om)) =
        Except.map Prod.fst (match diffStrings os as with
        | Except.error e => (Except.error e : Except DiffErr (List MacNode × StrMap))
        | Except.ok (ss, om) =>
          Except.ok (ss.map MacNode.stringset ++
            (diffList RGBColor.diffI 0 (ac.take 25) (oc.take 25)).map
              MacNode.color ++
            (diffList Rect.diff 0 (ar.take 18) (orects.take 18)).map
              MacNode.rect, om))
      rw [diffStrings_rep129_other as os w]
      cases diffStrings os as with
      | error e => rfl
      | ok q =>
        obtain ⟨ss, om⟩ := q
        rfl

/-- Witness for C10: a concrete diff whose output changes only string list
130 while both snapshots' id-129 lists differ. -/
theorem stringset_129_excluded_witness :
    ∀ s : StringsetNode,
      MacNode.stringset s ∈
        ([MacNode.stringset ⟨130, [(0, [2])]⟩] : List MacNode) →
      s.index ≠ 129 :=
  fun s hs =>
    stringset_129_excluded.1
      ⟨[(130, [[1]]), (129, [[9]])], [], []⟩
      ⟨[(130, [[2]]), (129, [[7]])], [], []⟩
      ([MacNode.stringset ⟨130, [(0, [2])]⟩],
        [(130, [[2]]), (129, [[7]])]) (by rfl) s hs

theorem xor_lt_65536 {a b : Nat} (ha : a < 65536) (hb : b < 65536) :
    a ^^^ b < 65536 := by
  have h16 : (65536 : Nat) = 2 ^ 16 := by norm_num
  rw [h16] at ha hb
  have := Nat.xor_lt_two_pow ha hb
  omega

theorem xor_poly_parity (x : Nat) (h : x % 2 = 0) : (x ^^^ 4129) % 2 = 1 := by
  rw [← Nat.and_one_is_mod, Nat.and_xor_distrib_right, Nat.and_one_is_mod,
    Nat.and_one_is_mod, h]
  decide

theorem xor_right_cancel {a b c : Nat} (h : a ^^^ c = b ^^^ c) : a = b := by
  have h2 := congrArg (fun z => z ^^^ c) h
  simpa [Nat.xor_assoc] using h2

theorem xor_left_cancel {a b c : Nat} (h : c ^^^ a = c ^^^ b) : a = b := by
  have h2 := congrArg (fun z => c ^^^ z) h
  simpa [← Nat.xor_assoc] using h2

theorem crcRound_lt (c : Nat) : crcRound c < 65536 := by
  unfold crcRound
  split
  · exact xor_lt_65536 (by omega) (by omega)
  · omega

theorem crcRound_inj {a b : Nat} (ha : a < 65536) (hb : b < 65536)
    (h : crcRound a = crcRound b) : a = b := by
  unfold crcRound at h
  by_cases h1 : 32768 ≤ a <;> by_cases h2 : 32768 ≤ b
  · rw [if_pos h1, if_pos h2] at h
    have := xor_right_cancel h
    omega
  · rw [if_pos h1, if_neg h2] at h
    have hodd := xor_poly_parity (2 * a % 65536) (by omega)
    omega
  · rw [if_neg h1, if_pos h2] at h
    have hodd := xor_poly_parity (2 * b % 65536) (by omega)
    omega
  · rw [if_neg h1, if_neg h2] at h
    omega

theorem crcRounds_lt (n : Nat) : ∀ c, c < 65536 → crcRounds n c < 65536 := by
  induction n with
  | zero => intro c hc; exact hc
  | succ n ih => intro c _; exact ih (crcRound c) (crcRound_lt c)

theorem crcRounds_inj (n : Nat) : ∀ a b, a < 65536 → b < 65536 →
    crcRounds n a = crcRounds n b → a = b := by
  induction n with
  | zero => intro a b _ _ h; exact h
  | succ n ih =>
    intro a b ha hb h
    exact crcRound_inj ha hb
      (ih (crcRound a) (crcRound b) (crcRound_lt a) (crcRound_lt b) h)

theorem crcByteStep_lt {c b : Nat} (hc : c < 65536) (hb : b < 256) :
    crcByteStep c b < 65536 :=
  crcRounds_lt 8 (c ^^^ b * 256) (xor_lt_65536 hc (by omega))

theorem crcByteStep_inj {c1 c2 b : Nat} (h1 : c1 < 65536) (h2 : c2 < 65536)
    (hb : b < 256) (hne : c1 ≠ c2) : crcByteStep c1 b ≠ crcByteStep c2 b := by
  intro h
  exact hne (xor_right_cancel (crcRounds_inj 8 (c1 ^^^ b * 256) (c2 ^^^ b * 256)
    (xor_lt_65536 h1 (by omega)) (xor_lt_65536 h2 (by omega)) h))

theorem crcByteStep_byte_inj {c b1 b2 : Nat} (hc : c < 65536) (h1 : b1 < 256)
    (h2 : b2 < 256) (hne : b1 ≠ b2) : crcByteStep c b1 ≠ crcByteStep c b2 := by
  intro h
  have := xor_left_cancel (crcRounds_inj 8 (c ^^^ b1 * 256) (c ^^^ b2 * 256)
    (xor_lt_65536 hc (by omega)) (xor_lt_65536 hc (by omega)) h)
  omega

theorem crc_foldl_lt (l : List Nat) : ∀ c, c < 65536 → (∀ b ∈ l, b < 256) →
    l.foldl crcByteStep c < 65536 := by
  induction l with
  | nil => intro c hc _; exact hc
  | cons b bs ih =>
    intro c hc hb
    rw [List.foldl_cons]
    exact ih (crcByteStep c b) (crcByteStep_lt hc (hb b (by simp)))
      (fun x hx => hb x (by simp [hx]))

theorem crc_foldl_inj (l : List Nat) : ∀ c1 c2, c1 < 65536 → c2 < 65536 →
    (∀ b ∈ l, b < 256) → c1 ≠ c2 →
    l.foldl crcByteStep c1 ≠ l.foldl crcByteStep c2 := by
  induction l with
  | nil => intro c1 c2 _ _ _ hne; exact hne
  | cons b bs ih =>
    intro c1 c2 h1 h2 hb hne
    rw [List.foldl_cons, List.foldl_cons]
    exact ih (crcByteStep c1 b) (crcByteStep c2 b)
      (crcByteStep_lt h1 (hb b (by simp))) (crcByteStep_lt h2 (hb b (by simp)))
      (fun x hx => hb x (by simp [hx]))
      (crcByteStep_inj h1 h2 (hb b (by simp)) hne)

/-- Changing one byte anywhere in the CRC-covered range changes the
CRC-16/XMODEM value. -/
theorem crc16_single_change {p s : List Nat} {b1 b2 : Nat}
    (hp : ∀ b ∈ p, b < 256) (hs : ∀ b ∈ s, b < 256)
    (h1 : b1 < 256) (h2 : b2 < 256) (hne : b1 ≠ b2) :
    crc16 (p ++ b1 :: s) ≠ crc16 (p ++ b2 :: s) := by
  unfold crc16
  rw [List.foldl_append, List.foldl_append]
  have hc : p.foldl crcByteStep 0 < 65536 := crc_foldl_lt p 0 (by norm_num) hp
  show (b1 :: s).foldl crcByteStep (p.foldl crcByteStep 0) ≠
    (b2 :: s).foldl crcByteStep (p.foldl crcByteStep 0)
  simp only [List.foldl_cons]
  exact crc_foldl_inj s _ _ (crcByteStep_lt hc h1) (crcByteStep_lt hc h2) hs
    (crcByteStep_byte_inj hc h1 h2 hne)

theorem getD_append_left {l l' : List Nat} {n : Nat} (h : n < l.length)
    (d : Nat) : (l ++ l').getD n d = l.getD n d := by
  simp [List.getD, List.getElem?_append_left h]

theorem getD_append_right {l l' : List Nat} {n : Nat} (h : l.length ≤ n)
    (d : Nat) : (l ++ l').getD n d = l'.getD (n - l.length) d := by
  simp [List.getD, List.getElem?_append_right h]

/-- Success of the envelope phase, characterized: the magic-byte conjunction
holds and the CRC matches the stored big-endian value. -/
theorem MacBinary.load_ok_char (h : List Nat) :
    (∃ off, MacBinary.load h = .ok off) ↔
      (h.getD 0 0 = 0 ∧ h.getD 1 0 ≤ 63 ∧ h.getD 74 0 = 0 ∧
        h.getD 123 0 ≤ 129 ∧
        crc16 (h.take 124) = h.getD 124 0 * 256 + h.getD 125 0) := by
  unfold MacBinary.load
  by_cases hc1 : h.getD 0 0 ≠ 0 ∨ 63 < h.getD 1 0 ∨ h.getD 74 0 ≠ 0 ∨
      129 < h.getD 123 0
  · rw [if_pos hc1]
    constructor
    · intro ⟨off, hoff⟩; cases hoff
    · intro ⟨a1, a2, a3, a4, _⟩
      exact absurd hc1 (by push_neg; exact ⟨a1, by omega, a3, by omega⟩)
  · rw [if_neg hc1]
    push_neg at hc1
    by_cases hc2 : crc16 (h.take 124) ≠ h.getD 124 0 * 256 + h.getD 125 0
    · rw [if_pos hc2]
      constructor
      · intro ⟨off, hoff⟩; cases hoff
      · intro ⟨_, _, _, _, a5⟩; exact absurd a5 hc2
    · rw [if_neg hc2]
      push_neg at hc2
      exact ⟨fun _ => ⟨hc1.1, by omega, hc1.2.2.1, by omega, hc2⟩,
        fun _ => ⟨_, rfl⟩⟩

theorem MacBinary.load_error_of_crc_ne {h : List Nat}
    (hcrc : crc16 (h.take 124) ≠ h.getD 124 0 * 256 + h.getD 125 0) :
    MacBinary.load h = .error .invalidEnvelope := by
  by_cases h1 : h.getD 0 0 ≠ 0 ∨ 63 < h.getD 1 0 ∨ h.getD 74 0 ≠ 0 ∨
      129 < h.getD 123 0
  · unfold MacBinary.load
    rw [if_pos h1]
  · unfold MacBinary.load
    rw [if_neg h1, if_pos hcrc]

/-- C6 (amended): for every 128-byte envelope header of byte values, the
envelope phase succeeds iff byte 0 is zero, byte 1 is at most 63, byte 74
is zero, byte 123 is at most 0x81, and the CRC-16/XMODEM (polynomial
0x1021, initial value 0, no reflection) of the first 124 bytes equals the
big-endian 16-bit value at bytes 124-125; and flipping any single byte
among the first 126 (positions 0-125) of a valid envelope makes the phase
fail with the fatal InvalidEnvelope error.  (Bytes 126 and 127 are not
covered by any check: flipping them cannot be detected.) -/
theorem envelope_validation :
    (∀ h : List Nat, h.length = 128 →
      ((∃ off, MacBinary.load h = .ok off) ↔
        (h.getD 0 0 = 0 ∧ h.getD 1 0 ≤ 63 ∧ h.getD 74 0 = 0 ∧
          h.getD 123 0 ≤ 129 ∧
          crc16 (h.take 124) = h.getD 124 0 * 256 + h.getD 125 0))) ∧
    (∀ (p s : List Nat) (b v : Nat),
      (∀ x ∈ p ++ b :: s, x < 256) → (p ++ b :: s).length = 128 →
      p.length < 126 → v < 256 → v ≠ b →
      (∃ off, MacBinary.load (p ++ b :: s) = .ok off) →
      MacBinary.load (p ++ v :: s) = .error .invalidEnvelope) := by
  constructor
  · intro h _
    exact MacBinary.load_ok_char h
  · intro p s b v hbytes hlen hpos hv hvb hok
    have hcrc := ((MacBinary.load_ok_char (p ++ b :: s)).mp hok).2.2.2.2
    have hpb : ∀ x ∈ p, x < 256 := fun x hx => hbytes x (by simp [hx])
    have hsb : ∀ x ∈ s, x < 256 := fun x hx => hbytes x (by simp [hx])
    have hb256 : b < 256 := hbytes b (by simp)
    have hplen : p.length + 1 + s.length = 128 := by
      have := hlen
      simp [List.length_append] at this
      omega
    by_cases hc : p.length ≤ 123
    · -- the flipped byte is inside the CRC-covered range
      have htake : ∀ c : Nat, (p ++ c :: s).take 124 =
          p ++ c :: s.take (123 - p.length) := by
        intro c
        rw [List.take_append_eq_append_take,
          List.take_of_length_le (by omega)]
        congr 1
        have : 124 - p.length = (123 - p.length) + 1 := by omega
        rw [this]
        rfl
      have hget : ∀ (c : Nat) (i : Nat), p.length < i →
          (p ++ c :: s).getD i 0 = s.getD (i - p.length - 1) 0 := by
        intro c i hi
        rw [getD_append_right (by omega)]
        have : i - p.length = (i - p.length - 1) + 1 := by omega
        rw [this]
        rfl
      have hcrcne : crc16 ((p ++ v :: s).take 124) ≠
          crc16 ((p ++ b :: s).take 124) := by
        rw [htake v, htake b]
        exact crc16_single_change hpb
          (fun x hx => hsb x (List.mem_of_mem_take hx)) hv hb256 hvb
      apply MacBinary.load_error_of_crc_ne
      rw [hget v 124 (by omega), hget v 125 (by omega)]
      rw [hget b 124 (by omega), hget b 125 (by omega)] at hcrc
      rw [← hcrc]
      exact hcrcne
    · -- the flipped byte is one of the two stored CRC bytes
      have hc124 : p.length = 124 ∨ p.length = 125 := by omega
      have htake4 : ∀ c : Nat, (p ++ c :: s).take 124 = p.take 124 := by
        intro c
        rw [List.take_append_eq_append_take]
        have : 124 - p.length = 0 := by omega
        rw [this]
        simp
      apply MacBinary.load_error_of_crc_ne
      rw [htake4 v]
      rw [htake4 b] at hcrc
      rcases hc124 with hc1 | hc1
      · have hg124 : ∀ c : Nat, (p ++ c :: s).getD 124 0 = c := by
          intro c
          rw [getD_append_right (by omega), hc1]
          simp
        have hg125 : ∀ c : Nat, (p ++ c :: s).getD 125 0 = s.getD 0 0 := by
          intro c
          rw [getD_append_right (by omega), hc1]
          rfl
        rw [hg124 v, hg125 v]
        rw [hg124 b, hg125 b] at hcrc
        omega
      · have hg124 : ∀ c : Nat, (p ++ c :: s).getD 124 0 = p.getD 124 0 := by
          intro c
          exact getD_append_left (by omega) 0
        have hg125 : ∀ c : Nat, (p ++ c :: s).getD 125 0 = c := by
          intro c
          rw [getD_append_right (by omega), hc1]
          simp
        rw [hg124 v, hg125 v]
        rw [hg124 b, hg125 b] at hcrc
        omega

theorem getD_replicate {n i : Nat} (h : i < n) (a d : Nat) :
    (List.replicate n a).getD i d = a := by
  simp [List.getD, List.getElem?_replicate, h]

theorem crc16_replicate_zero (n : Nat) : crc16 (List.replicate n 0) = 0 := by
  unfold crc16
  induction n with
  | zero => rfl
  | succ n ih =>
    rw [List.replicate_succ, List.foldl_cons]
    exact ih

/-- The all-zero 128-byte header is a valid envelope: every checked byte is
zero and the CRC of 124 zero bytes is 0, matching the stored 0; the
data-fork length is 0, so the resource fork starts at offset 128. -/
theorem MacBinary.load_allzero : MacBinary.load (List.replicate 128 0) = .ok 128 := by
  have h0 : ∀ i, i < 128 → (List.replicate 128 (0 : Nat)).getD i 0 = 0 :=
    fun i hi => getD_replicate hi 0 0
  have hcond : ¬((List.replicate 128 (0 : Nat)).getD 0 0 ≠ 0 ∨
      63 < (List.replicate 128 (0 : Nat)).getD 1 0 ∨
      (List.replicate 128 (0 : Nat)).getD 74 0 ≠ 0 ∨
      129 < (List.replicate 128 (0 : Nat)).getD 123 0) := by
    rw [h0 0 (by omega), h0 1 (by omega), h0 74 (by omega), h0 123 (by omega)]
    decide
  have hcrcEq : crc16 ((List.replicate 128 (0 : Nat)).take 124) =
      (List.replicate 128 (0 : Nat)).getD 124 0 * 256 +
        (List.replicate 128 (0 : Nat)).getD 125 0 := by
    rw [h0 124 (by omega), h0 125 (by omega), List.take_replicate]
    norm_num
    exact crc16_replicate_zero 124
  unfold MacBinary.load
  rw [if_neg hcond, if_neg (by rw [hcrcEq]; exact fun hc => hc rfl)]
  have hu : readU32D (List.replicate 128 0) 83 = 0 := by
    unfold readU32D
    rw [h0 83 (by omega), h0 84 (by omega), h0 85 (by omega), h0 86 (by omega)]
  rw [hu]
  rw [show ((128 + ((0 + 127) % 4294967296 &&& 4294967168)) % 4294967296) = 128
    by decide]

/-- A header that is all zero except its last byte also passes validation:
byte 127 is covered by no check. -/
theorem MacBinary.load_flip127 :
    MacBinary.load (List.replicate 127 0 ++ [1]) = .ok 128 := by
  have h0 : ∀ i, i < 127 → (List.replicate 127 (0 : Nat) ++ [1]).getD i 0 = 0 := by
    intro i hi
    rw [getD_append_left (by simp [hi]) 0]
    exact getD_replicate hi 0 0
  have hcond : ¬((List.replicate 127 (0 : Nat) ++ [1]).getD 0 0 ≠ 0 ∨
      63 < (List.replicate 127 (0 : Nat) ++ [1]).getD 1 0 ∨
      (List.replicate 127 (0 : Nat) ++ [1]).getD 74 0 ≠ 0 ∨
      129 < (List.replicate 127 (0 : Nat) ++ [1]).getD 123 0) := by
    rw [h0 0 (by omega), h0 1 (by omega), h0 74 (by omega), h0 123 (by omega)]
    decide
  have htake : (List.replicate 127 (0 : Nat) ++ [1]).take 124 =
      List.replicate 124 0 := by
    simp [List.take_append_eq_append_take, List.take_replicate]
  have hcrcEq : crc16 ((List.replicate 127 (0 : Nat) ++ [1]).take 124) =
      (List.replicate 127 (0 : Nat) ++ [1]).getD 124 0 * 256 +
        (List.replicate 127 (0 : Nat) ++ [1]).getD 125 0 := by
    rw [h0 124 (by omega), h0 125 (by omega), htake]
    norm_num
    exact crc16_replicate_zero 124
  unfold MacBinary.load
  rw [if_neg hcond, if_neg (by rw [hcrcEq]; exact fun hc => hc rfl)]
  have hu : readU32D (List.replicate 127 0 ++ [1]) 83 = 0 := by
    unfold readU32D
    rw [h0 83 (by omega), h0 84 (by omega), h0 85 (by omega), h0 86 (by omega)]
  rw [hu]
  rw [show ((128 + ((0 + 127) % 4294967296 &&& 4294967168)) % 4294967296) = 128
    by decide]

set_option maxRecDepth 4000 in
/-- Witness for C6 (amended): the all-zero header is a valid envelope (its
CRC over 124 zero bytes is 0, matching the stored 0), and flipping its
byte 5 to 1 is rejected. -/
theorem envelope_validation_witness :
    ((∃ off, MacBinary.load (List.replicate 128 0) = .ok off) ↔
      ((List.replicate 128 0).getD 0 0 = 0 ∧
        (List.replicate 128 0).getD 1 0 ≤ 63 ∧
        (List.replicate 128 0).getD 74 0 = 0 ∧
        (List.replicate 128 0).getD 123 0 ≤ 129 ∧
        crc16 ((List.replicate 128 0).take 124) =
          (List.replicate 128 0).getD 124 0 * 256 +
            (List.replicate 128 0).getD 125 0)) ∧
    MacBinary.load (List.replicate 5 0 ++ 1 :: List.replicate 122 0) =
      .error .invalidEnvelope :=
  ⟨envelope_validation.1 (List.replicate 128 0) (by decide),
    envelope_validation.2 (List.replicate 5 0) (List.replicate 122 0) 0 1
      (by decide) (by decide) (by decide) (by decide) (by decide)
      ⟨128, by
        rw [show List.replicate 5 (0 : Nat) ++ 0 :: List.replicate 122 0 =
          List.replicate 128 0 by decide]
        exact MacBinary.load_allzero⟩⟩

set_option maxRecDepth 4000 in
/-- Counterexample for C6 as stated: bytes 126 and 127 of the envelope are
covered by no check, so flipping byte 127 of a valid (all-zero) envelope is
not a violation: the envelope phase still succeeds and no InvalidEnvelope
error is raised. -/
theorem envelope_byte127_flip_undetected_counterexample :
    MacBinary.load (List.replicate 128 0) = .ok 128 ∧
    List.replicate 127 0 ++ [1] ≠ List.replicate 128 (0 : Nat) ∧
    MacBinary.load (List.replicate 127 0 ++ [1]) = .ok 128 :=
  ⟨MacBinary.load_allzero, by decide, MacBinary.load_flip127⟩

end ScenarioUtils
